import Mathlib

/-!
Verification development for the DBSTREAM streaming clusterer
(`src/river/cluster/dbstream.py`).

The Python class `DBSTREAM` maintains

* `micro_clusters` : an insertion-ordered dictionary from integer identifiers
  to `DBSTREAMMicroCluster` objects (center, last_update, weight);
* `s`, `s_t` : nested insertion-ordered dictionaries holding the shared-density
  graph values and their update timestamps, keyed by ordered pairs `i < j`;
* `time_stamp` : a global integer clock.

Python dictionaries are modelled as association lists `List (Nat × α)` with
insertion-order semantics: assignment to an existing key updates the entry in
place (its position is preserved), assignment to a fresh key appends, and
iteration order is list order, which matches CPython's ordered dictionaries.
Python floats are idealized as real numbers; fallible operations (statements
that can raise) are modelled with `Option` / `Except`.
-/

open scoped Classical

namespace DBStreamVerify

/-- Dictionary lookup: `d[k]` as an `Option` (`none` models a `KeyError`). -/
def alookup {α : Type} : List (Nat × α) → Nat → Option α
  | [], _ => none
  | (k', v) :: t, k => if k' = k then some v else alookup t k

/-- Dictionary assignment `d[k] = v`: updates an existing entry in place
(keeping its position, as CPython dictionaries do) or appends a new entry. -/
def aset {α : Type} : List (Nat × α) → Nat → α → List (Nat × α)
  | [], k, v => [(k, v)]
  | (k', v') :: t, k, v => if k' = k then (k, v) :: t else (k', v') :: aset t k v

/-- Dictionary deletion `d.pop(k)`: removes the entry with key `k`. -/
def aremove {α : Type} : List (Nat × α) → Nat → List (Nat × α)
  | [], _ => []
  | (k', v') :: t, k => if k' = k then t else (k', v') :: aremove t k

/-- `d.keys()` in iteration order. -/
def akeys {α : Type} (l : List (Nat × α)) : List Nat := l.map Prod.fst

/-- Nested lookup `d[i][j]` (`none` models a `KeyError` on either level). -/
def alookup2 {α : Type} (l : List (Nat × List (Nat × α))) (i j : Nat) : Option α :=
  match alookup l i with
  | none => none
  | some inner => alookup inner j

/-- Nested assignment `d[i][j] = v`, where a missing inner dictionary is
created (this matches the code's `except KeyError: d[i] = {j: v}` fallback). -/
def aset2 {α : Type} (l : List (Nat × List (Nat × α))) (i j : Nat) (v : α) :
    List (Nat × List (Nat × α)) :=
  aset l i (aset ((alookup l i).getD []) j v)

/-- The `DBSTREAMMicroCluster` class: a center (one coordinate per feature
dimension), the time stamp of the last update, and a weight. -/
structure DBSTREAMMicroCluster where
  center : Nat → ℝ
  last_update : Nat
  weight : ℝ

instance : Inhabited DBSTREAMMicroCluster := ⟨⟨fun _ => 0, 0, 0⟩⟩

/-- `DBSTREAMMicroCluster.merge`: the weighted merge of two micro-clusters.
The Python method mutates `self`; that mutation is modelled by returning the
new value of `self`.  The division by `self.weight + cluster.weight` raises a
`ZeroDivisionError` in Python when the weights sum to zero, modelled by
`none`.  Note that `last_update` is left at `self.last_update` (the Python
method never touches it). -/
noncomputable def DBSTREAMMicroCluster.merge (a b : DBSTREAMMicroCluster) :
    Option DBSTREAMMicroCluster :=
  if a.weight + b.weight = 0 then none
  else
    some
      { center := fun i =>
          (a.center i * a.weight + b.center i * b.weight) / (a.weight + b.weight),
        last_update := a.last_update,
        weight := a.weight + b.weight }

/-- The constructor parameters of `DBSTREAM`, fixed at construction, plus the
number of feature dimensions `dim` shared by all points (the spec requires
equal-dimension vectors; `cleanup_interval` is an integer per the spec's
configuration contract). -/
structure DBSTREAMParams where
  clustering_threshold : ℝ
  fading_factor : ℝ
  cleanup_interval : Nat
  minimum_weight : ℝ
  intersection_factor : ℝ
  dim : Nat

/-- The mutable state of a `DBSTREAM` instance (the derived `clusters`,
`centers`, `n_clusters` attributes are recomputed from this state by
`recluster` and are returned by it rather than stored). -/
structure DBSTREAMState where
  time_stamp : Nat
  micro_clusters : List (Nat × DBSTREAMMicroCluster)
  s : List (Nat × List (Nat × ℝ))
  s_t : List (Nat × List (Nat × Nat))

/-- The state established by `__init__`. -/
def initState : DBSTREAMState :=
  { time_stamp := 0, micro_clusters := [], s := [], s_t := [] }

/-- `self.micro_clusters[i]` where the key is known to be present; the
default is never reached on the Python code's access paths. -/
def getMC (l : List (Nat × DBSTREAMMicroCluster)) (i : Nat) : DBSTREAMMicroCluster :=
  (alookup l i).getD default

/-- `DBSTREAM._distance`: Euclidean distance,
`sqrt(minkowski_distance(a, b, 2))`.  Modelled from the spec for the external
helper `utils.math.minkowski_distance(a, b, 2)` (not part of this repository):
the sum over the `dim` feature dimensions of the squared coordinate
differences. -/
noncomputable def distance (dim : Nat) (a b : Nat → ℝ) : ℝ :=
  Real.sqrt (∑ k ∈ Finset.range dim, (a k - b k) ^ 2)

/-- `DBSTREAM._gaussian_neighborhood`. -/
noncomputable def gaussian_neighborhood (p : DBSTREAMParams) (a b : Nat → ℝ) : ℝ :=
  let d := distance p.dim a b
  let sigma := p.clustering_threshold / 3
  Real.exp (-(d * d) / (2 * (sigma * sigma)))

/-- `DBSTREAM._find_fixed_radius_nn`: the micro-clusters whose center lies
strictly within `clustering_threshold` of `x`, in store iteration order. -/
noncomputable def find_fixed_radius_nn (p : DBSTREAMParams) (st : DBSTREAMState)
    (x : Nat → ℝ) : List (Nat × DBSTREAMMicroCluster) :=
  st.micro_clusters.filter
    (fun im => decide (distance p.dim im.2.center x < p.clustering_threshold))

/-- The unconstrained Gaussian move of a center toward the point `x`
(the dictionary comprehension in `_update`, evaluated at the pre-update
center). -/
noncomputable def moved_center (p : DBSTREAMParams) (x : Nat → ℝ) (c : Nat → ℝ) :
    Nat → ℝ :=
  fun j => c j + gaussian_neighborhood p x c * (x j - c j)

/-- The shared-density update for the ordered pair `(i, j)` inside `_update`.
The Python code drives this with `try/except KeyError`: if `s[i][j]` (and its
timestamp) exist they are decayed and bumped, otherwise a fresh entry with
value `0` and timestamp `0` is created, either inside the existing inner
dictionary or together with a fresh inner dictionary.  `s` and `s_t` are kept
synchronized by the code (every write touches both), so the model branches on
the two lookups jointly. -/
noncomputable def sPairUpdate (p : DBSTREAMParams) (t : Nat) (i j : Nat)
    (st : DBSTREAMState) : DBSTREAMState :=
  match alookup2 st.s i j, alookup2 st.s_t i j with
  | some sij, some stij =>
    { st with
      s := aset2 st.s i j
        (sij * (2 : ℝ) ^ (-p.fading_factor * ((t : ℝ) - (stij : ℝ))) + 1),
      s_t := aset2 st.s_t i j t }
  | _, _ =>
    match alookup st.s i, alookup st.s_t i with
    | some si, some sti =>
      { st with
        s := aset st.s i (aset si j 0),
        s_t := aset st.s_t i (aset sti j 0) }
    | _, _ =>
      { st with
        s := aset st.s i [(j, 0)],
        s_t := aset st.s_t i [(j, 0)] }

/-- The body of the outer neighbor loop of `_update` for neighbor `i`:
decay-and-increment the weight, move the center toward `x` by the Gaussian
neighborhood weight evaluated at the pre-update center, stamp `last_update`,
then run the inner shared-density loop over the neighbor keys `j > i`. -/
noncomputable def neighborStep (p : DBSTREAMParams) (nnKeys : List Nat)
    (x : Nat → ℝ) (t : Nat) (st : DBSTREAMState) (i : Nat) : DBSTREAMState :=
  let mci := getMC st.micro_clusters i
  let st1 :=
    { st with
      micro_clusters := aset st.micro_clusters i
        { center := moved_center p x mci.center,
          last_update := t,
          weight :=
            mci.weight *
              (2 : ℝ) ^ (-p.fading_factor * ((t : ℝ) - (mci.last_update : ℝ))) + 1 } }
  nnKeys.foldl (fun acc j => if j > i then sPairUpdate p t i j acc else acc) st1

/-- One check of the collapse-prevention loop of `_update` for the pair
`(i, j)`: if the centers currently stored for `i` and `j` are strictly closer
than `clustering_threshold`, both centers are reverted to the recorded
pre-update centers (weights and timestamps keep their updated values). -/
noncomputable def collapseStep (p : DBSTREAMParams)
    (current_centers : Nat → Nat → ℝ) (i j : Nat) (st : DBSTREAMState) :
    DBSTREAMState :=
  if distance p.dim (getMC st.micro_clusters i).center
      (getMC st.micro_clusters j).center < p.clustering_threshold then
    { st with
      micro_clusters :=
        aset
          (aset st.micro_clusters i
            { getMC st.micro_clusters i with center := current_centers i })
          j { getMC st.micro_clusters j with center := current_centers j } }
  else st

/-- `DBSTREAM._update` (Algorithm 1).  If no neighbor is found a fresh
micro-cluster keyed by `len(micro_clusters)` is inserted (overwriting any
existing entry with that key, as dictionary assignment does); otherwise the
neighbor loop and then the collapse-prevention pair loop run.  The clock is
incremented by one either way. -/
noncomputable def update (p : DBSTREAMParams) (x : Nat → ℝ) (st : DBSTREAMState) :
    DBSTREAMState :=
  let neighbor_clusters := find_fixed_radius_nn p st x
  if neighbor_clusters.length < 1 then
    { st with
      micro_clusters := aset st.micro_clusters st.micro_clusters.length
        { center := x, last_update := st.time_stamp, weight := 1 },
      time_stamp := st.time_stamp + 1 }
  else
    let nnKeys := akeys neighbor_clusters
    let current_centers : Nat → Nat → ℝ := fun i => (getMC st.micro_clusters i).center
    let stA := nnKeys.foldl (fun acc i => neighborStep p nnKeys x st.time_stamp acc i) st
    let stB := nnKeys.foldl
      (fun acc1 i =>
        nnKeys.foldl
          (fun acc2 j =>
            if j > i then collapseStep p current_centers i j acc2 else acc2)
          acc1)
      stA
    { stB with time_stamp := st.time_stamp + 1 }

/-- `weight_weak` as computed at the top of `_cleanup`. -/
noncomputable def weight_weak (p : DBSTREAMParams) : ℝ :=
  (2 : ℝ) ^ (-p.fading_factor * (p.cleanup_interval : ℝ))

/-- The removal criterion of the micro-cluster loop of `_cleanup`. -/
noncomputable def isWeak (p : DBSTREAMParams) (t : Nat)
    (mc : DBSTREAMMicroCluster) : Prop :=
  mc.weight * (2 : ℝ) ^ (p.fading_factor * ((t : ℝ) - (mc.last_update : ℝ))) <
    weight_weak p

/-- The first store entry, in iteration order, meeting the removal
criterion. -/
noncomputable def firstWeak (p : DBSTREAMParams) (t : Nat) :
    List (Nat × DBSTREAMMicroCluster) → Option Nat
  | [] => none
  | (i, mc) :: rest => if isWeak p t mc then some i else firstWeak p t rest

/-- The weak-edge criterion of the second loop of `_cleanup`. -/
noncomputable def weakEdge (p : DBSTREAMParams) (t : Nat)
    (s_t : List (Nat × List (Nat × Nat))) (i j : Nat) (v : ℝ) : Prop :=
  v * (2 : ℝ) ^ (p.fading_factor * ((t : ℝ) - ((alookup2 s_t i j).getD 0 : ℝ))) <
    p.intersection_factor * weight_weak p

/-- The second loop of `_cleanup`: weak shared-density entries are cleared to
`0` (value and timestamp) in place.  This loop only assigns to existing keys,
so no dictionary changes size and no error can occur. -/
noncomputable def cleanupEdges (p : DBSTREAMParams) (t : Nat)
    (st : DBSTREAMState) : DBSTREAMState :=
  { st with
    s := st.s.map (fun pri =>
      (pri.1, pri.2.map (fun prj =>
        if weakEdge p t st.s_t pri.1 prj.1 prj.2 then (prj.1, (0 : ℝ)) else prj))),
    s_t := st.s_t.map (fun pri =>
      (pri.1, pri.2.map (fun prj =>
        if weakEdge p t st.s_t pri.1 prj.1 ((alookup2 st.s pri.1 prj.1).getD 0)
        then (prj.1, (0 : Nat)) else prj))) }

/-- `DBSTREAM._cleanup` (Algorithm 2).  The Python code pops from
`self.micro_clusters` while iterating `self.micro_clusters.items()`; CPython
dictionary iterators check the dictionary's size on every step and raise
`RuntimeError` (dictionary changed size during iteration) at the step after a
removal, regardless of position.  Hence: if some entry meets the removal
criterion, exactly the first such entry (in iteration order) is popped and the
call terminates abnormally with the store so modified and the shared-density
loop never reached (`Except.error`); otherwise the micro-cluster loop
completes without effect and the shared-density loop runs (`Except.ok`). -/
noncomputable def cleanup (p : DBSTREAMParams) (st : DBSTREAMState) :
    Except DBSTREAMState DBSTREAMState :=
  match firstWeak p st.time_stamp st.micro_clusters with
  | some i => .error { st with micro_clusters := aremove st.micro_clusters i }
  | none => .ok (cleanupEdges p st.time_stamp st)

/-- `DBSTREAM.learn_one`: run `_update`, then `_cleanup` whenever the advanced
clock is a multiple of `cleanup_interval`.  An uncaught `RuntimeError` from
`_cleanup` propagates (`Except.error` carries the state at the point of the
raise). -/
noncomputable def learn_one (p : DBSTREAMParams) (x : Nat → ℝ)
    (st : DBSTREAMState) : Except DBSTREAMState DBSTREAMState :=
  let st1 := update p x st
  if st1.time_stamp % p.cleanup_interval = 0 then cleanup p st1 else .ok st1

/-- `DBSTREAM._generate_weighted_adjacency_matrix` (Algorithm 3, first half).
Iterates the shared-density entries; each endpoint is looked up in the store
(a dangling identifier raises `KeyError`, modelled by `none`); an edge is kept
when both weights reach `minimum_weight` and the normalized value exceeds
`intersection_factor`. -/
noncomputable def generate_weighted_adjacency_matrix (p : DBSTREAMParams)
    (st : DBSTREAMState) : Option (List (Nat × List (Nat × ℝ))) :=
  st.s.foldlM
    (fun acc pri =>
      pri.2.foldlM
        (fun acc2 prj =>
          match alookup st.micro_clusters pri.1, alookup st.micro_clusters prj.1 with
          | some mci, some mcj =>
            if p.minimum_weight ≤ mci.weight ∧ p.minimum_weight ≤ mcj.weight then
              if p.intersection_factor < prj.2 / ((mci.weight + mcj.weight) / 2) then
                some (aset2 acc2 pri.1 prj.1 (prj.2 / ((mci.weight + mcj.weight) / 2)))
              else some acc2
            else some acc2
          | _, _ => none)
        acc)
    []

/-- Fuel bound for the seed-set loop of `_generate_labels`.  Each loop
iteration either pops the queue head or labels a previously unlabeled node
(which happens at most once per node and appends at most one queue entry per
adjacency entry), so the queue is exhausted well within
`(nodes + adjacency entries + 1)^2` iterations; the quadratic bound is a
comfortable overapproximation. -/
def labelLoopFuel {α : Type} (labels : List (Nat × Option Nat))
    (adj : List (Nat × List (Nat × α))) : Nat :=
  let n := labels.length + adj.length + (adj.map (fun pr => pr.2.length)).sum + 1
  n * n + n

/-- The seed-set (`while seed_set:`) loop of `_generate_labels`, faithful to
the source: a labeled queue head is popped; an unlabeled queue head is given
the current label and is left at the head of the queue (to be popped on the
next iteration), and those of its adjacency-list neighbors whose label `is
not None` — i.e. the already-labeled ones, exactly as the condition in the
source reads — are appended to the queue. -/
def labelLoop {α : Type} (adj : List (Nat × List (Nat × α))) (count : Nat) :
    Nat → List Nat → List (Nat × Option Nat) → List (Nat × Option Nat)
  | 0, _, labels => labels
  | _ + 1, [], labels => labels
  | fuel + 1, q0 :: qrest, labels =>
    if ((alookup labels q0).getD none).isSome then
      labelLoop adj count fuel qrest labels
    else
      let labels1 := aset labels q0 (some count)
      let appended :=
        match alookup adj q0 with
        | some inner =>
          (akeys inner).filter (fun nn => ((alookup labels1 nn).getD none).isSome)
        | none => []
      labelLoop adj count fuel ((q0 :: qrest) ++ appended) labels1

/-- The outer loop of `_generate_labels` over the micro-cluster identifiers:
skip labeled ones, otherwise open the next label (the Python counter starts at
`-1` and is pre-incremented, so labels run `0, 1, ...`; `count` here is the
next label to open), label the node, and if it has an adjacency entry run the
seed-set loop on its neighbor keys. -/
def labelOuter {α : Type} (adj : List (Nat × List (Nat × α))) :
    List Nat → Nat → List (Nat × Option Nat) → List (Nat × Option Nat)
  | [], _, labels => labels
  | index :: rest, count, labels =>
    if ((alookup labels index).getD none).isSome then
      labelOuter adj rest count labels
    else
      let labels1 := aset labels index (some count)
      match alookup adj index with
      | none => labelOuter adj rest (count + 1) labels1
      | some inner =>
        labelOuter adj rest (count + 1)
          (labelLoop adj count (labelLoopFuel labels1 adj) (akeys inner) labels1)

/-- `DBSTREAM._generate_labels`: label map over the micro-cluster
identifiers, initialized to `None` in store order. -/
def generate_labels {α : Type} (micro_keys : List Nat)
    (adj : List (Nat × List (Nat × α))) : List (Nat × Option Nat) :=
  labelOuter adj micro_keys 0 (micro_keys.map (fun i => (i, (none : Option Nat))))

/-- `DBSTREAM._generate_clusters_from_labels`.  `max` over the label values
raises `ValueError` on an empty collection (modelled by `none`).  For each
label, the member micro-cluster objects are collected in store order; the
first member object itself becomes the macro-cluster and the remaining
members are merged into it — since the Python `merge` mutates `self`, the
store entry of that first member is updated with the merged value (the
aliasing is modelled by writing the merged record back at the first member's
key).  Returns `(n_clusters, clusters, store)` with the possibly mutated
store. -/
noncomputable def generate_clusters_from_labels
    (store : List (Nat × DBSTREAMMicroCluster))
    (cluster_labels : List (Nat × Option Nat)) :
    Option (Nat × List (Nat × DBSTREAMMicroCluster) × List (Nat × DBSTREAMMicroCluster)) :=
  match (cluster_labels.filterMap Prod.snd).max? with
  | none => none
  | some m =>
    ((List.range (m + 1)).foldlM
      (fun (acc : List (Nat × DBSTREAMMicroCluster) × List (Nat × DBSTREAMMicroCluster)) i =>
        let memberKeys := cluster_labels.filterMap
          (fun pr : Nat × Option Nat => if pr.2 = some i then some pr.1 else none)
        match memberKeys.mapM (fun k => alookup acc.2 k) with
        | none => none
        | some members =>
          match members with
          | [] => none
          | first :: rest =>
            match rest.foldlM (fun a b => DBSTREAMMicroCluster.merge a b) first with
            | none => none
            | some merged =>
              some (aset acc.1 i merged, aset acc.2 (memberKeys.headD 0) merged))
      (([] : List (Nat × DBSTREAMMicroCluster)), store)).map
      (fun acc : List (Nat × DBSTREAMMicroCluster) × List (Nat × DBSTREAMMicroCluster) =>
        (acc.1.length, acc.1, acc.2))

/-- `DBSTREAM._recluster`: adjacency, then labels, then macro-clusters; the
derived values `(n_clusters, clusters, centers)` are returned together with
the state whose store reflects the in-place merges. -/
noncomputable def recluster (p : DBSTREAMParams) (st : DBSTREAMState) :
    Option ((Nat × List (Nat × DBSTREAMMicroCluster) × List (Nat × (Nat → ℝ))) ×
      DBSTREAMState) :=
  match generate_weighted_adjacency_matrix p st with
  | none => none
  | some wam =>
    match generate_clusters_from_labels st.micro_clusters
        (generate_labels (akeys st.micro_clusters) wam) with
    | none => none
    | some (n, clusters, store2) =>
      some ((n, clusters,
        clusters.map (fun pr : Nat × DBSTREAMMicroCluster => (pr.1, pr.2.center))),
        { st with micro_clusters := store2 })

/-- `DBSTREAM.predict_one`: recluster, then scan the centers keeping the
first strictly-smaller distance (`min_distance` starts at `math.inf`, so the
first center always wins the first comparison; the accumulator `none` plays
the role of the infinite initial distance).  Returns the chosen label and the
state left by reclustering; an exception during reclustering propagates
(`none`). -/
noncomputable def predict_one (p : DBSTREAMParams) (x : Nat → ℝ)
    (st : DBSTREAMState) : Option (Nat × DBSTREAMState) :=
  match recluster p st with
  | none => none
  | some ((_, _, centers), st2) =>
    let result := centers.foldl
      (fun (acc : Option (ℝ × Nat)) pr =>
        match acc with
        | none => some (distance p.dim pr.2 x, pr.1)
        | some md =>
          if distance p.dim pr.2 x < md.1 then some (distance p.dim pr.2 x, pr.1)
          else acc)
      (none : Option (ℝ × Nat))
    some ((result.map Prod.snd).getD 0, st2)

/-- One successful `learn_one` step of the stream machine. -/
noncomputable def LearnStep (p : DBSTREAMParams) (a b : DBSTREAMState) : Prop :=
  ∃ x, learn_one p x a = .ok b

/-- A state reachable from the freshly constructed clusterer by successful
`learn_one` calls. -/
noncomputable def Reachable (p : DBSTREAMParams) (st : DBSTREAMState) : Prop :=
  Relation.ReflTransGen (LearnStep p) initState st

/-! ## Association-list lemmas -/

@[simp] lemma alookup_nil {α : Type} (k : Nat) :
    alookup ([] : List (Nat × α)) k = none := rfl

@[simp] lemma alookup_cons {α : Type} (k' : Nat) (v : α) (t : List (Nat × α)) (k : Nat) :
    alookup ((k', v) :: t) k = if k' = k then some v else alookup t k := rfl

@[simp] lemma aset_nil {α : Type} (k : Nat) (v : α) :
    aset ([] : List (Nat × α)) k v = [(k, v)] := rfl

@[simp] lemma aset_cons {α : Type} (k' : Nat) (v' : α) (t : List (Nat × α)) (k : Nat) (v : α) :
    aset ((k', v') :: t) k v = if k' = k then (k, v) :: t else (k', v') :: aset t k v := rfl

@[simp] lemma akeys_nil {α : Type} : akeys ([] : List (Nat × α)) = [] := rfl

@[simp] lemma akeys_cons {α : Type} (k : Nat) (v : α) (t : List (Nat × α)) :
    akeys ((k, v) :: t) = k :: akeys t := rfl

lemma alookup_aset_self {α : Type} (l : List (Nat × α)) (k : Nat) (v : α) :
    alookup (aset l k v) k = some v := by
  induction l with
  | nil => simp
  | cons hd t ih =>
    obtain ⟨k', v'⟩ := hd
    by_cases h : k' = k <;> simp [h, ih]

lemma alookup_aset_ne {α : Type} (l : List (Nat × α)) (k k' : Nat) (v : α)
    (h : k ≠ k') : alookup (aset l k v) k' = alookup l k' := by
  induction l with
  | nil => simp [h]
  | cons hd t ih =>
    obtain ⟨k0, v0⟩ := hd
    by_cases h0 : k0 = k
    · subst h0
      simp [h]
    · simp only [aset_cons, if_neg h0, alookup_cons, ih]

lemma mem_akeys_of_alookup {α : Type} {l : List (Nat × α)} {k : Nat} {v : α}
    (h : alookup l k = some v) : k ∈ akeys l := by
  induction l with
  | nil => simp at h
  | cons hd t ih =>
    obtain ⟨k0, v0⟩ := hd
    by_cases h0 : k0 = k
    · simp [h0]
    · simp only [alookup_cons, if_neg h0] at h
      simp [ih h]

lemma alookup_isSome_of_mem_akeys {α : Type} {l : List (Nat × α)} {k : Nat}
    (h : k ∈ akeys l) : ∃ v, alookup l k = some v := by
  induction l with
  | nil => simp [akeys] at h
  | cons hd t ih =>
    obtain ⟨k0, v0⟩ := hd
    by_cases h0 : k0 = k
    · exact ⟨v0, by simp [h0]⟩
    · simp only [akeys_cons, List.mem_cons] at h
      rcases h with h | h
      · exact absurd h.symm h0
      · obtain ⟨v, hv⟩ := ih h
        exact ⟨v, by simp [h0, hv]⟩

lemma mem_of_alookup_eq_some {α : Type} {l : List (Nat × α)} {k : Nat} {v : α}
    (h : alookup l k = some v) : (k, v) ∈ l := by
  induction l with
  | nil => simp at h
  | cons hd t ih =>
    obtain ⟨k0, v0⟩ := hd
    by_cases h0 : k0 = k
    · subst h0
      simp only [alookup_cons, if_true, eq_self_iff_true, Option.some.injEq] at h
      simp [h]
    · simp only [alookup_cons, if_neg h0] at h
      simp [ih h]

lemma mem_aset {α : Type} {l : List (Nat × α)} {k : Nat} {v : α} {pr : Nat × α}
    (h : pr ∈ aset l k v) : pr = (k, v) ∨ pr ∈ l := by
  induction l with
  | nil => simpa using h
  | cons hd t ih =>
    obtain ⟨k0, v0⟩ := hd
    by_cases h0 : k0 = k
    · simp only [aset_cons, if_pos h0, List.mem_cons] at h
      rcases h with h | h
      · exact Or.inl h
      · exact Or.inr (List.mem_cons_of_mem _ h)
    · simp only [aset_cons, if_neg h0, List.mem_cons] at h
      rcases h with h | h
      · exact Or.inr (by simp [h])
      · rcases ih h with h' | h'
        · exact Or.inl h'
        · exact Or.inr (List.mem_cons_of_mem _ h')

lemma akeys_aset_of_mem {α : Type} {l : List (Nat × α)} {k : Nat} (v : α)
    (h : k ∈ akeys l) : akeys (aset l k v) = akeys l := by
  induction l with
  | nil => simp [akeys] at h
  | cons hd t ih =>
    obtain ⟨k0, v0⟩ := hd
    by_cases h0 : k0 = k
    · simp [h0]
    · simp only [akeys_cons, List.mem_cons] at h
      rcases h with h | h
      · exact absurd h.symm h0
      · simp [h0, ih h]

lemma mem_akeys_aset {α : Type} {l : List (Nat × α)} {k k' : Nat} (v : α)
    (h : k' ∈ akeys l) : k' ∈ akeys (aset l k v) := by
  by_cases hk : k = k'
  · subst hk
    exact mem_akeys_of_alookup (alookup_aset_self l k v)
  · obtain ⟨w, hw⟩ := alookup_isSome_of_mem_akeys h
    exact mem_akeys_of_alookup (by rw [alookup_aset_ne l k k' v hk]; exact hw)

/-! ## Projection lemmas for the update phases -/

lemma sPairUpdate_micro_clusters (p : DBSTREAMParams) (t : Nat) (i j : Nat)
    (st : DBSTREAMState) :
    (sPairUpdate p t i j st).micro_clusters = st.micro_clusters := by
  unfold sPairUpdate
  split
  · rfl
  · split <;> rfl

lemma sPairUpdate_time_stamp (p : DBSTREAMParams) (t : Nat) (i j : Nat)
    (st : DBSTREAMState) :
    (sPairUpdate p t i j st).time_stamp = st.time_stamp := by
  unfold sPairUpdate
  split
  · rfl
  · split <;> rfl

lemma collapseStep_s (p : DBSTREAMParams) (cc : Nat → Nat → ℝ) (i j : Nat)
    (st : DBSTREAMState) : (collapseStep p cc i j st).s = st.s := by
  unfold collapseStep
  split <;> rfl

lemma collapseStep_s_t (p : DBSTREAMParams) (cc : Nat → Nat → ℝ) (i j : Nat)
    (st : DBSTREAMState) : (collapseStep p cc i j st).s_t = st.s_t := by
  unfold collapseStep
  split <;> rfl

lemma collapseStep_time_stamp (p : DBSTREAMParams) (cc : Nat → Nat → ℝ) (i j : Nat)
    (st : DBSTREAMState) : (collapseStep p cc i j st).time_stamp = st.time_stamp := by
  unfold collapseStep
  split <;> rfl

lemma foldl_preserve {σ α : Type} (f : σ → α → σ) (P : σ → Prop) (l : List α)
    (s : σ) (hP : P s) (h : ∀ s' a, a ∈ l → P s' → P (f s' a)) :
    P (l.foldl f s) := by
  induction l generalizing s with
  | nil => exact hP
  | cons a t ih =>
    exact ih (f s a) (h s a (by simp) hP) (fun s' b hb => h s' b (by simp [hb]))

/-- The collapse-prevention double fold leaves `s`, `s_t` and the clock
unchanged (it only rewrites centers in the store). -/
lemma collapseFold_s (p : DBSTREAMParams) (cc : Nat → Nat → ℝ) (keys : List Nat)
    (st : DBSTREAMState) :
    (keys.foldl
      (fun acc1 i =>
        keys.foldl
          (fun acc2 j => if j > i then collapseStep p cc i j acc2 else acc2) acc1)
      st).s = st.s := by
  refine foldl_preserve _ (fun s' => s'.s = st.s) keys st rfl ?_
  intro s' i _ hs
  refine foldl_preserve _ (fun s'' => s''.s = st.s) keys s' hs ?_
  intro s'' j _ hs'
  by_cases hji : j > i
  · simpa [hji, collapseStep_s] using hs'
  · simpa [hji] using hs'

lemma collapseFold_s_t (p : DBSTREAMParams) (cc : Nat → Nat → ℝ) (keys : List Nat)
    (st : DBSTREAMState) :
    (keys.foldl
      (fun acc1 i =>
        keys.foldl
          (fun acc2 j => if j > i then collapseStep p cc i j acc2 else acc2) acc1)
      st).s_t = st.s_t := by
  refine foldl_preserve _ (fun s' => s'.s_t = st.s_t) keys st rfl ?_
  intro s' i _ hs
  refine foldl_preserve _ (fun s'' => s''.s_t = st.s_t) keys s' hs ?_
  intro s'' j _ hs'
  by_cases hji : j > i
  · simpa [hji, collapseStep_s_t] using hs'
  · simpa [hji] using hs'

/-! ## Numeric helper lemmas -/

/-- Distance between two constant (one coordinate repeated) centers in one
dimension. -/
lemma distance_const (a b : ℝ) :
    distance 1 (fun _ => a) (fun _ => b) = |a - b| := by
  simp only [distance, Finset.sum_range_one]
  exact Real.sqrt_sq_eq_abs _

lemma two_rpow_int (q : ℝ) (z : ℤ) (h : q = (z : ℝ)) :
    (2 : ℝ) ^ q = (2 : ℝ) ^ z := by
  rw [h, Real.rpow_intCast]

/-- Establishes the `_cleanup` removal criterion by evaluating both real
exponentials at integer exponents. -/
lemma isWeak_eval (p : DBSTREAMParams) (t : Nat) (mc : DBSTREAMMicroCluster)
    (z1 z2 : ℤ)
    (h1 : p.fading_factor * ((t : ℝ) - (mc.last_update : ℝ)) = (z1 : ℝ))
    (h2 : -p.fading_factor * (p.cleanup_interval : ℝ) = (z2 : ℝ))
    (h : mc.weight * (2 : ℝ) ^ z1 < (2 : ℝ) ^ z2) : isWeak p t mc := by
  unfold isWeak weight_weak
  rw [h1, h2, Real.rpow_intCast, Real.rpow_intCast]
  exact h

/-! ## Claim C2 -/

/-- C2.  The claim states that `_generate_labels` assigns the same label to
any two micro-clusters joined by a path of kept edges and that the traversal
enqueues the unlabeled neighbors of each newly visited node.  Evaluating the
code on the kept-edge chain `0 — 1 — 2` (adjacency `{0: {1: ·}, 1: {2: ·}}`
over micro-clusters `0, 1, 2`) refutes this: the seed-set loop's condition
`labels[neighbor_neighbor] is not None` appends only already-labeled
neighbors (the opposite of its own `# add new neighbors to seed set`
comment), so the traversal never advances past the direct neighbors of the
seed: node `2` receives the fresh label `1` although it is connected to node
`0` (label `0`) through node `1`. -/
theorem C2_one_hop_labels :
    generate_labels [0, 1, 2] [(0, [(1, (1 : ℝ))]), (1, [(2, (1 : ℝ))])] =
      [(0, some 0), (1, some 0), (2, some 1)] ∧
    alookup (generate_labels [0, 1, 2] [(0, [(1, (1 : ℝ))]), (1, [(2, (1 : ℝ))])]) 0 ≠
      alookup (generate_labels [0, 1, 2] [(0, [(1, (1 : ℝ))]), (1, [(2, (1 : ℝ))])]) 2 := by
  decide

/-! ## Claim C3 -/

/-- C3.  The claim states that with no micro-clusters present, `predict_one`
returns the default label `0` rather than failing.  In the code, however,
`predict_one` always calls `_recluster`, and `_generate_clusters_from_labels`
evaluates `max(cluster_labels.values())` on the empty label collection, which
raises `ValueError: max() arg is an empty sequence` before the scan with its
`closest_cluster_index = 0` default is ever reached.  On the freshly
constructed state, for every parameter choice and every query point, the call
fails (returns `none`) instead of returning `0`. -/
theorem C3_empty_store_predict (p : DBSTREAMParams) (x : Nat → ℝ) :
    predict_one p x initState = none := by
  simp [predict_one, recluster, generate_weighted_adjacency_matrix, initState,
    generate_clusters_from_labels, generate_labels, labelOuter, akeys, List.foldlM]

/-! ## Concrete one-dimensional points -/

/-- A one-dimensional point (constant in the unused coordinates). -/
def cpoint (a : ℝ) : Nat → ℝ := fun _ => a

lemma distance_cpoint (a b : ℝ) :
    distance 1 (cpoint a) (cpoint b) = |a - b| := distance_const a b

lemma dist_far (a b : ℝ) (h : 1 ≤ |a - b|) :
    ¬ (distance 1 (cpoint a) (cpoint b) < (1 : ℝ)) := by
  rw [distance_cpoint]
  exact not_lt.mpr h

lemma dist_near (a b : ℝ) (h : |a - b| < 1) :
    distance 1 (cpoint a) (cpoint b) < (1 : ℝ) := by
  rw [distance_cpoint]
  exact h

/-! ## Claim C7 -/

/-- C7 run: `clustering_threshold = 1`, `fading_factor = -1`,
`cleanup_interval = 3`, `minimum_weight = 1`, `intersection_factor = 0.3`,
one feature dimension. -/
def pC7 : DBSTREAMParams := ⟨1, -1, 3, 1, 0.3, 1⟩

/-- C7 run after `learn_one` of the point `0`. -/
def stC7a : DBSTREAMState := ⟨1, [(0, ⟨cpoint 0, 0, 1⟩)], [], []⟩

/-- C7 run after `learn_one` of the point `10`. -/
def stC7b : DBSTREAMState :=
  ⟨2, [(0, ⟨cpoint 0, 0, 1⟩), (1, ⟨cpoint 10, 1, 1⟩)], [], []⟩

/-- C7 run: the state carried by the `RuntimeError` of the third `learn_one`
(micro-cluster `0` was popped by `_cleanup`, which then raised; identifiers
`1` and `2` are live). -/
def stC7err : DBSTREAMState :=
  ⟨3, [(1, ⟨cpoint 10, 1, 1⟩), (2, ⟨cpoint 20, 2, 1⟩)], [], []⟩

/-- C7 run after the caller resumes with `learn_one` of the point `30`. -/
def stC7d : DBSTREAMState :=
  ⟨4, [(1, ⟨cpoint 10, 1, 1⟩), (2, ⟨cpoint 30, 3, 1⟩)], [], []⟩

/-- C7.  The claim states that a newly created micro-cluster's identifier
never collides with the identifier of a live micro-cluster, including after
deletions by cleanup.  The code derives fresh identifiers from
`len(self.micro_clusters)`, which collides after a deletion: feeding the far
apart points `0, 10, 20` with `fading_factor = -1` and `cleanup_interval = 3`
makes the third `learn_one` pop micro-cluster `0` inside `_cleanup` (and
raise), leaving live identifiers `1, 2`; the next `learn_one` of the far
point `30` then assigns the fresh micro-cluster the identifier
`len(store) = 2`, which is the identifier of the live micro-cluster with
center `20`, and the dictionary assignment silently overwrites that live
micro-cluster: the store still has two entries and entry `2` now holds the
new cluster. -/
theorem C7_id_collision_eval :
    learn_one pC7 (cpoint 0) initState = .ok stC7a ∧
    learn_one pC7 (cpoint 10) stC7a = .ok stC7b ∧
    learn_one pC7 (cpoint 20) stC7b = .error stC7err ∧
    learn_one pC7 (cpoint 30) stC7err = .ok stC7d ∧
    alookup stC7err.micro_clusters 2 = some ⟨cpoint 20, 2, 1⟩ ∧
    stC7d.micro_clusters.length = stC7err.micro_clusters.length ∧
    alookup stC7d.micro_clusters 2 = some ⟨cpoint 30, 3, 1⟩ := by
  have habs : ∀ a b : ℝ, 0 ≤ b - a → |a - b| = b - a := by
    intro a b h
    rw [abs_sub_comm]
    exact abs_of_nonneg h
  have hd010 : ¬ (distance 1 (cpoint 0) (cpoint 10) < (1 : ℝ)) :=
    dist_far 0 10 (by rw [habs 0 10 (by norm_num)]; norm_num)
  have hd020 : ¬ (distance 1 (cpoint 0) (cpoint 20) < (1 : ℝ)) :=
    dist_far 0 20 (by rw [habs 0 20 (by norm_num)]; norm_num)
  have hd1020 : ¬ (distance 1 (cpoint 10) (cpoint 20) < (1 : ℝ)) :=
    dist_far 10 20 (by rw [habs 10 20 (by norm_num)]; norm_num)
  have hd1030 : ¬ (distance 1 (cpoint 10) (cpoint 30) < (1 : ℝ)) :=
    dist_far 10 30 (by rw [habs 10 30 (by norm_num)]; norm_num)
  have hd2030 : ¬ (distance 1 (cpoint 20) (cpoint 30) < (1 : ℝ)) :=
    dist_far 20 30 (by rw [habs 20 30 (by norm_num)]; norm_num)
  refine ⟨rfl, ?_, ?_, ?_, rfl, rfl, rfl⟩
  · have hnn : find_fixed_radius_nn pC7 stC7a (cpoint 10) = [] := by
      simp [find_fixed_radius_nn, stC7a, pC7, List.filter_cons, hd010]
    have hupd : update pC7 (cpoint 10) stC7a = stC7b := by
      unfold update
      rw [hnn]
      simp [stC7a, stC7b, aset]
    unfold learn_one
    rw [hupd]
    simp [stC7b, pC7]
  · have hnn : find_fixed_radius_nn pC7 stC7b (cpoint 20) = [] := by
      simp [find_fixed_radius_nn, stC7b, pC7, List.filter_cons, hd020, hd1020]
    have hupd : update pC7 (cpoint 20) stC7b =
        ⟨3, [(0, ⟨cpoint 0, 0, 1⟩), (1, ⟨cpoint 10, 1, 1⟩), (2, ⟨cpoint 20, 2, 1⟩)],
          [], []⟩ := by
      unfold update
      rw [hnn]
      simp [stC7b, aset]
    have hw : isWeak pC7 3 ⟨cpoint 0, 0, 1⟩ :=
      isWeak_eval pC7 3 _ (-3) 3 (by norm_num [pC7]) (by norm_num [pC7])
        (by norm_num)
    have hfw : firstWeak pC7 3
        [(0, (⟨cpoint 0, 0, 1⟩ : DBSTREAMMicroCluster)), (1, ⟨cpoint 10, 1, 1⟩),
          (2, ⟨cpoint 20, 2, 1⟩)] = some 0 := by
      unfold firstWeak
      rw [if_pos hw]
    unfold learn_one
    rw [hupd]
    have htrig : (3 : Nat) % pC7.cleanup_interval = 0 := by
      simp [pC7]
    rw [if_pos htrig]
    unfold cleanup
    rw [hfw]
    simp [aremove, stC7err]
  · have hnn : find_fixed_radius_nn pC7 stC7err (cpoint 30) = [] := by
      simp [find_fixed_radius_nn, stC7err, pC7, List.filter_cons, hd1030, hd2030]
    have hupd : update pC7 (cpoint 30) stC7err = stC7d := by
      unfold update
      rw [hnn]
      simp [stC7err, stC7d, aset]
    unfold learn_one
    rw [hupd]
    simp [stC7d, pC7]

/-! ## Claim C10 -/

lemma firstWeak_isSome {p : DBSTREAMParams} {t : Nat}
    {l : List (Nat × DBSTREAMMicroCluster)}
    (h : ∃ pr ∈ l, isWeak p t pr.2) : ∃ i, firstWeak p t l = some i := by
  induction l with
  | nil => simp at h
  | cons hd rest ih =>
    obtain ⟨k, mc⟩ := hd
    by_cases hw : isWeak p t mc
    · exact ⟨k, by unfold firstWeak; rw [if_pos hw]⟩
    · obtain ⟨pr, hmem, hpr⟩ := h
      rcases List.mem_cons.mp hmem with hmem | hmem
      · exact absurd (by rw [hmem] at hpr; exact hpr) hw
      · obtain ⟨i, hi⟩ := ih ⟨pr, hmem, hpr⟩
        exact ⟨i, by unfold firstWeak; rw [if_neg hw]; exact hi⟩

/-- C10.  Whenever, after the point is processed, the advanced clock triggers
the cleanup and some stored micro-cluster satisfies the removal criterion,
`_cleanup` pops an entry from `self.micro_clusters` while iterating over that
same dictionary; CPython's dictionary iterator then raises
`RuntimeError: dictionary changed size during iteration` on its next step, so
`learn_one` terminates abnormally: the error state has exactly the first weak
entry removed from the store while the shared-density structures (whose own
cleanup loop is never reached) and the clock are left as `_update` produced
them — a partially modified state. -/
theorem C10_cleanup_raises (p : DBSTREAMParams) (x : Nat → ℝ) (st : DBSTREAMState)
    (htrig : (update p x st).time_stamp % p.cleanup_interval = 0)
    (hweak : ∃ pr ∈ (update p x st).micro_clusters,
      isWeak p (update p x st).time_stamp pr.2) :
    ∃ i st',
      firstWeak p (update p x st).time_stamp (update p x st).micro_clusters = some i ∧
      learn_one p x st = .error st' ∧
      st'.micro_clusters = aremove (update p x st).micro_clusters i ∧
      st'.s = (update p x st).s ∧
      st'.s_t = (update p x st).s_t ∧
      st'.time_stamp = (update p x st).time_stamp := by
  obtain ⟨i, hi⟩ := firstWeak_isSome hweak
  refine ⟨i,
    { update p x st with micro_clusters := aremove (update p x st).micro_clusters i },
    hi, ?_, rfl, rfl, rfl, rfl⟩
  unfold learn_one
  rw [if_pos htrig]
  unfold cleanup
  rw [hi]

/-- C10 witness parameters: `cleanup_interval = 1` and `fading_factor = -1`,
so the very first `learn_one` triggers a removal. -/
def pC10 : DBSTREAMParams := ⟨1, -1, 1, 1, 0.3, 1⟩

/-- C10 witness: on the first `learn_one` after construction, the cleanup
triggers, the just-created micro-cluster is weak, and `learn_one` raises with
the store partially emptied. -/
theorem C10_cleanup_raises_witness :
    ((update pC10 (cpoint 0) initState).time_stamp % pC10.cleanup_interval = 0) ∧
    (∃ pr ∈ (update pC10 (cpoint 0) initState).micro_clusters,
      isWeak pC10 (update pC10 (cpoint 0) initState).time_stamp pr.2) ∧
    (∃ i st',
      firstWeak pC10 (update pC10 (cpoint 0) initState).time_stamp
        (update pC10 (cpoint 0) initState).micro_clusters = some i ∧
      learn_one pC10 (cpoint 0) initState = .error st' ∧
      st'.micro_clusters = aremove (update pC10 (cpoint 0) initState).micro_clusters i ∧
      st'.s = (update pC10 (cpoint 0) initState).s ∧
      st'.s_t = (update pC10 (cpoint 0) initState).s_t ∧
      st'.time_stamp = (update pC10 (cpoint 0) initState).time_stamp) := by
  have hupd : update pC10 (cpoint 0) initState =
      ⟨1, [(0, ⟨cpoint 0, 0, 1⟩)], [], []⟩ := rfl
  have htrig : (update pC10 (cpoint 0) initState).time_stamp % pC10.cleanup_interval = 0 := by
    rw [hupd]
    rfl
  have hweak : ∃ pr ∈ (update pC10 (cpoint 0) initState).micro_clusters,
      isWeak pC10 (update pC10 (cpoint 0) initState).time_stamp pr.2 := by
    rw [hupd]
    refine ⟨(0, ⟨cpoint 0, 0, 1⟩), by simp, ?_⟩
    exact isWeak_eval pC10 1 _ (-1) 1 (by norm_num [pC10]) (by norm_num [pC10])
      (by norm_num)
  exact ⟨htrig, hweak, C10_cleanup_raises pC10 (cpoint 0) initState htrig hweak⟩

/-! ## Claim C9 -/

/-- Store invariant: every stored micro-cluster has weight at least `1` and a
`last_update` not beyond the clock value `t`. -/
def GoodStore (l : List (Nat × DBSTREAMMicroCluster)) (t : Nat) : Prop :=
  ∀ pr ∈ l, 1 ≤ pr.2.weight ∧ pr.2.last_update ≤ t

lemma goodStore_mono {l : List (Nat × DBSTREAMMicroCluster)} {t t' : Nat}
    (h : GoodStore l t) (ht : t ≤ t') : GoodStore l t' :=
  fun pr hpr => ⟨(h pr hpr).1, (h pr hpr).2.trans ht⟩

lemma aset_goodStore {l : List (Nat × DBSTREAMMicroCluster)} {t : Nat}
    {k : Nat} {mc : DBSTREAMMicroCluster} (h : GoodStore l t)
    (hmc : 1 ≤ mc.weight ∧ mc.last_update ≤ t) : GoodStore (aset l k mc) t :=
  fun pr hpr => (mem_aset hpr).elim (fun e => by rw [e]; exact hmc) (h pr)

lemma getMC_good {l : List (Nat × DBSTREAMMicroCluster)} {t : Nat} {k : Nat}
    (h : GoodStore l t) (hk : k ∈ akeys l) :
    1 ≤ (getMC l k).weight ∧ (getMC l k).last_update ≤ t := by
  obtain ⟨v, hv⟩ := alookup_isSome_of_mem_akeys hk
  unfold getMC
  rw [hv]
  exact h (k, v) (mem_of_alookup_eq_some hv)

lemma getMC_weight_nonneg {l : List (Nat × DBSTREAMMicroCluster)} {t : Nat}
    (h : GoodStore l t) (k : Nat) : 0 ≤ (getMC l k).weight := by
  rcases hv : alookup l k with _ | v
  · simp only [getMC, hv, Option.getD_none]
    exact le_of_eq rfl
  · have := (h (k, v) (mem_of_alookup_eq_some hv)).1
    simp only [getMC, hv, Option.getD_some]
    linarith

lemma sPairFold_micro_clusters (p : DBSTREAMParams) (t : Nat) (i : Nat)
    (l : List Nat) (s : DBSTREAMState) :
    (l.foldl (fun acc j => if j > i then sPairUpdate p t i j acc else acc)
      s).micro_clusters = s.micro_clusters := by
  induction l generalizing s with
  | nil => rfl
  | cons a rest ih =>
    simp only [List.foldl_cons]
    rw [ih]
    by_cases hj : a > i
    · rw [if_pos hj, sPairUpdate_micro_clusters]
    · rw [if_neg hj]

/-- The store after a full `neighborStep` is the store with exactly the
record of neighbor `i` replaced by its decayed-and-moved version (the inner
shared-density loop leaves the store untouched). -/
lemma neighborStep_micro_clusters (p : DBSTREAMParams) (keys : List Nat)
    (x : Nat → ℝ) (t : Nat) (st : DBSTREAMState) (i : Nat) :
    (neighborStep p keys x t st i).micro_clusters =
      aset st.micro_clusters i
        { center := moved_center p x (getMC st.micro_clusters i).center,
          last_update := t,
          weight := (getMC st.micro_clusters i).weight *
            (2 : ℝ) ^ (-p.fading_factor *
              ((t : ℝ) - ((getMC st.micro_clusters i).last_update : ℝ))) + 1 } := by
  simp only [neighborStep]
  rw [sPairFold_micro_clusters]

/-- Both update phases preserve the store invariant (for the clock value `t`
they run at). -/
lemma phases_goodStore (p : DBSTREAMParams) (x : Nat → ℝ) (t : Nat)
    (keys : List Nat) (cc : Nat → Nat → ℝ) (st : DBSTREAMState)
    (hkeys : ∀ k ∈ keys, k ∈ akeys st.micro_clusters)
    (h : GoodStore st.micro_clusters t) :
    GoodStore
      ((keys.foldl
        (fun acc1 i =>
          keys.foldl
            (fun acc2 j => if j > i then collapseStep p cc i j acc2 else acc2) acc1)
        (keys.foldl (fun acc i => neighborStep p keys x t acc i) st)).micro_clusters)
      t := by
  have hstep :
      ∀ s' : DBSTREAMState,
        (GoodStore s'.micro_clusters t ∧
          ∀ k ∈ akeys st.micro_clusters, k ∈ akeys s'.micro_clusters) →
        ∀ i ∈ keys, ∀ j ∈ keys,
          GoodStore (collapseStep p cc i j s').micro_clusters t ∧
            ∀ k ∈ akeys st.micro_clusters,
              k ∈ akeys (collapseStep p cc i j s').micro_clusters := by
    intro s' ⟨hg, hsub⟩ i hi j hj
    unfold collapseStep
    split
    · have hgi := getMC_good hg (hsub i (hkeys i hi))
      have hgj := getMC_good hg (hsub j (hkeys j hj))
      constructor
      · exact aset_goodStore (aset_goodStore hg hgi) hgj
      · intro k hk
        exact mem_akeys_aset _ (mem_akeys_aset _ (hsub k hk))
    · exact ⟨hg, hsub⟩
  have hA :
      GoodStore
        ((keys.foldl (fun acc i => neighborStep p keys x t acc i) st).micro_clusters) t ∧
      ∀ k ∈ akeys st.micro_clusters,
        k ∈ akeys
          ((keys.foldl (fun acc i => neighborStep p keys x t acc i) st).micro_clusters) := by
    refine foldl_preserve _
      (fun s' => GoodStore s'.micro_clusters t ∧
        ∀ k ∈ akeys st.micro_clusters, k ∈ akeys s'.micro_clusters)
      keys st ⟨h, fun k hk => hk⟩ ?_
    intro s' i _ hP
    obtain ⟨hg, hsub⟩ := hP
    refine ⟨?_, ?_⟩
    · rw [neighborStep_micro_clusters]
      refine aset_goodStore hg ⟨?_, le_refl t⟩
      show (1 : ℝ) ≤ (getMC s'.micro_clusters i).weight *
        (2 : ℝ) ^ (-p.fading_factor *
          ((t : ℝ) - ((getMC s'.micro_clusters i).last_update : ℝ))) + 1
      have hnn : 0 ≤ (getMC s'.micro_clusters i).weight *
          (2 : ℝ) ^ (-p.fading_factor *
            ((t : ℝ) - ((getMC s'.micro_clusters i).last_update : ℝ))) :=
        mul_nonneg (getMC_weight_nonneg hg i)
          (Real.rpow_pos_of_pos (by norm_num) _).le
      linarith
    · intro k hk
      rw [neighborStep_micro_clusters]
      exact mem_akeys_aset _ (hsub k hk)
  refine (foldl_preserve
    (fun acc1 i =>
      keys.foldl
        (fun acc2 j => if j > i then collapseStep p cc i j acc2 else acc2) acc1)
    (fun s' => GoodStore s'.micro_clusters t ∧
      ∀ k ∈ akeys st.micro_clusters, k ∈ akeys s'.micro_clusters)
    keys _ hA ?_).1
  intro s1 i hi hP1
  refine foldl_preserve _
    (fun s' => GoodStore s'.micro_clusters t ∧
      ∀ k ∈ akeys st.micro_clusters, k ∈ akeys s'.micro_clusters)
    keys s1 hP1 ?_
  intro s2 j hj hP2
  by_cases hji : j > i
  · rw [if_pos hji]
    exact ⟨(hstep s2 hP2 i hi j hj).1, (hstep s2 hP2 i hi j hj).2⟩
  · rw [if_neg hji]
    exact hP2

lemma update_goodStore (p : DBSTREAMParams) (x : Nat → ℝ) (st : DBSTREAMState)
    (h : GoodStore st.micro_clusters st.time_stamp) :
    GoodStore (update p x st).micro_clusters (update p x st).time_stamp := by
  have hsub : ∀ k ∈ akeys (find_fixed_radius_nn p st x), k ∈ akeys st.micro_clusters := by
    intro k hk
    unfold find_fixed_radius_nn at hk
    unfold akeys at hk ⊢
    exact List.map_subset _ (List.filter_sublist _).subset hk
  simp only [update]
  by_cases hlen : (find_fixed_radius_nn p st x).length < 1
  · rw [if_pos hlen]
    intro pr hpr
    rcases mem_aset hpr with e | hmem
    · rw [e]
      exact ⟨by norm_num, Nat.le_succ _⟩
    · exact ⟨(h pr hmem).1, (h pr hmem).2.trans (Nat.le_succ _)⟩
  · rw [if_neg hlen]
    exact goodStore_mono
      (phases_goodStore p x st.time_stamp (akeys (find_fixed_radius_nn p st x))
        (fun i => (getMC st.micro_clusters i).center) st hsub h)
      (Nat.le_succ _)

lemma cleanupEdges_micro_clusters (p : DBSTREAMParams) (t : Nat) (st : DBSTREAMState) :
    (cleanupEdges p t st).micro_clusters = st.micro_clusters := rfl

lemma cleanupEdges_time_stamp (p : DBSTREAMParams) (t : Nat) (st : DBSTREAMState) :
    (cleanupEdges p t st).time_stamp = st.time_stamp := rfl

lemma learn_goodStore (p : DBSTREAMParams) (x : Nat → ℝ) (st st' : DBSTREAMState)
    (h : GoodStore st.micro_clusters st.time_stamp)
    (hok : learn_one p x st = .ok st') :
    GoodStore st'.micro_clusters st'.time_stamp := by
  have hupd := update_goodStore p x st h
  unfold learn_one at hok
  by_cases htrig : (update p x st).time_stamp % p.cleanup_interval = 0
  · rw [if_pos htrig] at hok
    unfold cleanup at hok
    split at hok
    · exact absurd hok (by simp)
    · rw [Except.ok.injEq] at hok
      rw [← hok]
      rw [cleanupEdges_micro_clusters, cleanupEdges_time_stamp]
      exact hupd
  · rw [if_neg htrig, Except.ok.injEq] at hok
    rw [← hok]
    exact hupd

lemma reachable_goodStore (p : DBSTREAMParams) (st : DBSTREAMState)
    (h : Reachable p st) : GoodStore st.micro_clusters st.time_stamp := by
  induction h with
  | refl => intro pr hpr; simp [initState] at hpr
  | tail _ hbc ih =>
    obtain ⟨x, hx⟩ := hbc
    exact learn_goodStore _ _ _ _ ih hx

lemma weight_weak_lt_one (p : DBSTREAMParams) (hf : 0 < p.fading_factor)
    (hc : 0 < p.cleanup_interval) : weight_weak p < 1 := by
  unfold weight_weak
  refine Real.rpow_lt_one_of_one_lt_of_neg (by norm_num) ?_
  have : (0 : ℝ) < p.fading_factor * (p.cleanup_interval : ℝ) :=
    mul_pos hf (by exact_mod_cast hc)
  linarith

lemma projected_weight_ge_one (p : DBSTREAMParams) (t : Nat)
    (mc : DBSTREAMMicroCluster) (hf : 0 < p.fading_factor)
    (hw : 1 ≤ mc.weight) (hl : mc.last_update ≤ t) :
    1 ≤ mc.weight *
      (2 : ℝ) ^ (p.fading_factor * ((t : ℝ) - (mc.last_update : ℝ))) := by
  have hexp : 0 ≤ p.fading_factor * ((t : ℝ) - (mc.last_update : ℝ)) :=
    mul_nonneg hf.le (sub_nonneg.mpr (by exact_mod_cast hl))
  have h1 : (1 : ℝ) ≤ (2 : ℝ) ^ (p.fading_factor * ((t : ℝ) - (mc.last_update : ℝ))) :=
    Real.one_le_rpow (by norm_num) hexp
  calc (1 : ℝ) = 1 * 1 := by norm_num
    _ ≤ mc.weight * (2 : ℝ) ^ (p.fading_factor * ((t : ℝ) - (mc.last_update : ℝ))) :=
      mul_le_mul hw h1 (by norm_num) (by linarith)

lemma firstWeak_none (p : DBSTREAMParams) (t : Nat)
    (l : List (Nat × DBSTREAMMicroCluster))
    (h : ∀ pr ∈ l, ¬ isWeak p t pr.2) : firstWeak p t l = none := by
  induction l with
  | nil => rfl
  | cons hd rest ih =>
    obtain ⟨k, mc⟩ := hd
    unfold firstWeak
    rw [if_neg (h (k, mc) (by simp))]
    exact ih (fun pr hpr => h pr (List.mem_cons_of_mem _ hpr))

/-- C9.  In every state reachable by `learn_one` calls under a valid
configuration with `fading_factor > 0` (and a positive `cleanup_interval`),
every stored micro-cluster has weight at least `1` (weight is `1` at creation
and a non-negative decayed value plus `1` after each update), hence its
cleanup projection `weight * 2^(fading_factor * (time_stamp - last_update))`
is also at least `1`, while `weight_weak = 2^(-fading_factor *
cleanup_interval)` is below `1`; consequently no stored micro-cluster meets
the removal criterion and `_cleanup` never removes a micro-cluster (it
completes normally with the store unchanged). -/
theorem C9_weights_ge_one_no_removal (p : DBSTREAMParams)
    (hf : 0 < p.fading_factor) (hc : 0 < p.cleanup_interval)
    (st : DBSTREAMState) (hr : Reachable p st) :
    weight_weak p < 1 ∧
    (∀ pr ∈ st.micro_clusters,
      1 ≤ pr.2.weight ∧
      1 ≤ pr.2.weight *
        (2 : ℝ) ^ (p.fading_factor * ((st.time_stamp : ℝ) - (pr.2.last_update : ℝ))) ∧
      ¬ isWeak p st.time_stamp pr.2) ∧
    ∃ st', cleanup p st = .ok st' ∧ st'.micro_clusters = st.micro_clusters := by
  have hg := reachable_goodStore p st hr
  have hww := weight_weak_lt_one p hf hc
  have hmain : ∀ pr ∈ st.micro_clusters,
      1 ≤ pr.2.weight ∧
      1 ≤ pr.2.weight *
        (2 : ℝ) ^ (p.fading_factor * ((st.time_stamp : ℝ) - (pr.2.last_update : ℝ))) ∧
      ¬ isWeak p st.time_stamp pr.2 := by
    intro pr hpr
    obtain ⟨hw, hl⟩ := hg pr hpr
    have hproj := projected_weight_ge_one p st.time_stamp pr.2 hf hw hl
    refine ⟨hw, hproj, ?_⟩
    unfold isWeak
    exact not_lt.mpr (le_of_lt (lt_of_lt_of_le hww hproj))
  refine ⟨hww, hmain, cleanupEdges p st.time_stamp st, ?_, rfl⟩
  unfold cleanup
  rw [firstWeak_none p st.time_stamp st.micro_clusters (fun pr hpr => (hmain pr hpr).2.2)]

/-- C9 witness parameters: `fading_factor = 1`, `cleanup_interval = 2`. -/
def pC9 : DBSTREAMParams := ⟨1, 1, 2, 1, 0.3, 1⟩

/-- C9 witness state: after one `learn_one` of the point `0`. -/
def stC9 : DBSTREAMState := ⟨1, [(0, ⟨cpoint 0, 0, 1⟩)], [], []⟩

/-- C9 witness: the hypotheses hold for the concrete reachable state after
one `learn_one`, and the theorem's conclusions follow there. -/
theorem C9_weights_ge_one_no_removal_witness :
    0 < pC9.fading_factor ∧ 0 < pC9.cleanup_interval ∧ Reachable pC9 stC9 ∧
    (weight_weak pC9 < 1 ∧
    (∀ pr ∈ stC9.micro_clusters,
      1 ≤ pr.2.weight ∧
      1 ≤ pr.2.weight *
        (2 : ℝ) ^ (pC9.fading_factor * ((stC9.time_stamp : ℝ) - (pr.2.last_update : ℝ))) ∧
      ¬ isWeak pC9 stC9.time_stamp pr.2) ∧
    ∃ st', cleanup pC9 stC9 = .ok st' ∧ st'.micro_clusters = stC9.micro_clusters) := by
  have hreach : Reachable pC9 stC9 :=
    Relation.ReflTransGen.single ⟨cpoint 0, rfl⟩
  exact ⟨by norm_num [pC9], by norm_num [pC9], hreach,
    C9_weights_ge_one_no_removal pC9 (by norm_num [pC9]) (by norm_num [pC9]) stC9 hreach⟩

/-! ## Claim C5 -/

/-- The shared-density value and timestamp dictionaries have the same outer
key set.  The code writes `s` and `s_t` together on every path, so this holds
on every reachable state (the `try/except` update logic silently assumes
it). -/
def SSync (st : DBSTREAMState) : Prop :=
  ∀ a, (alookup st.s a = none ↔ alookup st.s_t a = none)

lemma alookup2_aset_outer_ne {α : Type} (l : List (Nat × List (Nat × α)))
    (a : Nat) (X : List (Nat × α)) (i j : Nat) (h : a ≠ i) :
    alookup2 (aset l a X) i j = alookup2 l i j := by
  unfold alookup2
  rw [alookup_aset_ne _ _ _ _ h]

lemma alookup2_aset_outer_self {α : Type} (l : List (Nat × List (Nat × α)))
    (i j : Nat) (X : List (Nat × α)) :
    alookup2 (aset l i X) i j = alookup X j := by
  unfold alookup2
  rw [alookup_aset_self]

lemma alookup2_aset2_inner_ne {α : Type} (l : List (Nat × List (Nat × α)))
    (i b j : Nat) (v : α) (hb : b ≠ j) :
    alookup2 (aset2 l i b v) i j = alookup2 l i j := by
  unfold aset2
  rw [alookup2_aset_outer_self, alookup_aset_ne _ _ _ _ hb]
  cases hv : alookup l i with
  | none => simp [alookup2, hv]
  | some inner => simp [alookup2, hv]

/-- Every branch of the shared-density update writes an inner dictionary at
the outer key of the processed pair, in both `s` and `s_t`. -/
lemma sPairUpdate_s_shape (p : DBSTREAMParams) (t : Nat) (a b : Nat)
    (st : DBSTREAMState) :
    ∃ X Y, (sPairUpdate p t a b st).s = aset st.s a X ∧
      (sPairUpdate p t a b st).s_t = aset st.s_t a Y := by
  unfold sPairUpdate
  split
  · exact ⟨_, _, rfl, rfl⟩
  · split
    · exact ⟨_, _, rfl, rfl⟩
    · exact ⟨_, _, rfl, rfl⟩

lemma sPairUpdate_sync {p : DBSTREAMParams} {t : Nat} {a b : Nat}
    {st : DBSTREAMState} (hsync : SSync st) : SSync (sPairUpdate p t a b st) := by
  obtain ⟨X, Y, hX, hY⟩ := sPairUpdate_s_shape p t a b st
  intro k
  rw [hX, hY]
  by_cases hk : a = k
  · subst hk
    rw [alookup_aset_self, alookup_aset_self]
    simp
  · rw [alookup_aset_ne _ _ _ _ hk, alookup_aset_ne _ _ _ _ hk]
    exact hsync k

lemma sPairUpdate_ne_outer {p : DBSTREAMParams} {t : Nat} {a b i j : Nat}
    {st : DBSTREAMState} (ha : a ≠ i) :
    alookup2 (sPairUpdate p t a b st).s i j = alookup2 st.s i j ∧
    alookup2 (sPairUpdate p t a b st).s_t i j = alookup2 st.s_t i j := by
  obtain ⟨X, Y, hX, hY⟩ := sPairUpdate_s_shape p t a b st
  rw [hX, hY]
  exact ⟨alookup2_aset_outer_ne _ _ _ _ _ ha, alookup2_aset_outer_ne _ _ _ _ _ ha⟩

lemma sPairUpdate_ne_inner {p : DBSTREAMParams} {t : Nat} {i b j : Nat}
    {st : DBSTREAMState} (hb : b ≠ j) (hsync : SSync st) :
    alookup2 (sPairUpdate p t i b st).s i j = alookup2 st.s i j ∧
    alookup2 (sPairUpdate p t i b st).s_t i j = alookup2 st.s_t i j := by
  unfold sPairUpdate
  split
  · exact ⟨alookup2_aset2_inner_ne _ _ _ _ _ hb, alookup2_aset2_inner_ne _ _ _ _ _ hb⟩
  · split
    · next si sti hsi hsti =>
      constructor
      · rw [alookup2_aset_outer_self, alookup_aset_ne _ _ _ _ hb]
        simp [alookup2, hsi]
      · rw [alookup2_aset_outer_self, alookup_aset_ne _ _ _ _ hb]
        simp [alookup2, hsti]
    · next hfall =>
      have hnone : alookup st.s i = none := by
        cases hA : alookup st.s i with
        | none => rfl
        | some si =>
          cases hB : alookup st.s_t i with
          | none =>
            exact absurd ((hsync i).mpr hB) (by simp [hA])
          | some sti => exact (hfall si sti hA hB).elim
      have hnone' : alookup st.s_t i = none := (hsync i).mp hnone
      constructor
      · rw [alookup2_aset_outer_self]
        simp [alookup2, hnone, alookup_cons, hb]
      · rw [alookup2_aset_outer_self]
        simp [alookup2, hnone', alookup_cons, hb]

lemma sPairUpdate_establish {p : DBSTREAMParams} {t : Nat} {i j : Nat}
    {st : DBSTREAMState} (hs : alookup2 st.s i j = none) (hsync : SSync st) :
    alookup2 (sPairUpdate p t i j st).s i j = some 0 ∧
    alookup2 (sPairUpdate p t i j st).s_t i j = some 0 := by
  unfold sPairUpdate
  split
  · next sij stij hsij hstij =>
    rw [hsij] at hs
    exact absurd hs (by simp)
  · split
    · next si sti hsi hsti =>
      constructor
      · rw [alookup2_aset_outer_self]
        exact alookup_aset_self _ _ _
      · rw [alookup2_aset_outer_self]
        exact alookup_aset_self _ _ _
    · constructor
      · rw [alookup2_aset_outer_self]
        simp [alookup_cons]
      · rw [alookup2_aset_outer_self]
        simp [alookup_cons]

lemma foldl_establish {σ α : Type} (f : σ → α → σ) (R Q : σ → Prop) (a : α)
    (l2 : List α) (hest : ∀ s', R s' → Q (f s' a))
    (hpres2 : ∀ s' b, b ∈ l2 → Q s' → Q (f s' b)) :
    ∀ (l1 : List α) (s : σ), R s → (∀ s' b, b ∈ l1 → R s' → R (f s' b)) →
      Q ((l1 ++ a :: l2).foldl f s) := by
  intro l1
  induction l1 with
  | nil =>
    intro s hR _
    simpa using foldl_preserve f Q l2 (f s a) (hest s hR) hpres2
  | cons b t ih =>
    intro s hR hpres1
    simp only [List.cons_append, List.foldl_cons]
    exact ih (f s b) (hpres1 s b (by simp) hR)
      (fun s' b' hb' => hpres1 s' b' (by simp [hb']))

/-- The inner shared-density loop of neighbor `i` leaves `s`/`s_t` lookups at
a pair with a different first component untouched and preserves sync. -/
lemma sPairFold_preserve (p : DBSTREAMParams) (t : Nat) (a : Nat)
    (keys : List Nat) (st : DBSTREAMState) (i j : Nat) (ha : a ≠ i)
    (hsync : SSync st) :
    alookup2 ((keys.foldl
      (fun acc b => if b > a then sPairUpdate p t a b acc else acc) st)).s i j =
        alookup2 st.s i j ∧
    alookup2 ((keys.foldl
      (fun acc b => if b > a then sPairUpdate p t a b acc else acc) st)).s_t i j =
        alookup2 st.s_t i j ∧
    SSync ((keys.foldl
      (fun acc b => if b > a then sPairUpdate p t a b acc else acc) st)) := by
  refine foldl_preserve _
    (fun s' => alookup2 s'.s i j = alookup2 st.s i j ∧
      alookup2 s'.s_t i j = alookup2 st.s_t i j ∧ SSync s')
    keys st ⟨rfl, rfl, hsync⟩ ?_
  intro s' b _ hP
  obtain ⟨h1, h2, h3⟩ := hP
  by_cases hb : b > a
  · rw [if_pos hb]
    obtain ⟨e1, e2⟩ := @sPairUpdate_ne_outer p t a b i j s' ha
    exact ⟨e1.trans h1, e2.trans h2, sPairUpdate_sync h3⟩
  · rw [if_neg hb]
    exact ⟨h1, h2, h3⟩

/-- Running the inner shared-density loop of neighbor `i` over a duplicate
free key list containing `j > i`, starting from a state with no `(i, j)`
entry, creates the entry with value `0` and timestamp `0`. -/
lemma sPairFold_establish (p : DBSTREAMParams) (t : Nat) (i j : Nat)
    (keys : List Nat) (st : DBSTREAMState) (hj : j ∈ keys) (hij : i < j)
    (hnd : keys.Nodup) (hs : alookup2 st.s i j = none) (hsync : SSync st) :
    alookup2 ((keys.foldl
      (fun acc b => if b > i then sPairUpdate p t i b acc else acc) st)).s i j =
        some 0 ∧
    alookup2 ((keys.foldl
      (fun acc b => if b > i then sPairUpdate p t i b acc else acc) st)).s_t i j =
        some 0 ∧
    SSync ((keys.foldl
      (fun acc b => if b > i then sPairUpdate p t i b acc else acc) st)) := by
  obtain ⟨l1, l2, rfl⟩ := List.append_of_mem hj
  have hjl1 : j ∉ l1 := by
    intro hcon
    exact (List.disjoint_of_nodup_append hnd) hcon (by simp)
  have hjl2 : j ∉ l2 := by
    have := (List.Nodup.of_append_right hnd)
    exact (List.nodup_cons.mp this).1
  refine foldl_establish _
    (fun s' => alookup2 s'.s i j = none ∧ SSync s')
    (fun s' => alookup2 s'.s i j = some 0 ∧ alookup2 s'.s_t i j = some 0 ∧ SSync s')
    j l2 ?_ ?_ l1 st ⟨hs, hsync⟩ ?_
  · intro s' hR
    rw [if_pos hij]
    obtain ⟨e1, e2⟩ := sPairUpdate_establish hR.1 hR.2
    exact ⟨e1, e2, sPairUpdate_sync hR.2⟩
  · intro s' b hb hQ
    obtain ⟨h1, h2, h3⟩ := hQ
    by_cases hbi : b > i
    · rw [if_pos hbi]
      have hbj : b ≠ j := fun e => hjl2 (e ▸ hb)
      obtain ⟨e1, e2⟩ := sPairUpdate_ne_inner hbj h3
      exact ⟨e1.trans h1, e2.trans h2, sPairUpdate_sync h3⟩
    · rw [if_neg hbi]
      exact ⟨h1, h2, h3⟩
  · intro s' b hb hR
    by_cases hbi : b > i
    · rw [if_pos hbi]
      have hbj : b ≠ j := fun e => hjl1 (e ▸ hb)
      obtain ⟨e1, _⟩ := sPairUpdate_ne_inner hbj hR.2
      exact ⟨e1.trans hR.1, sPairUpdate_sync hR.2⟩
    · rw [if_neg hbi]
      exact hR

/-- The decayed-and-moved record written for neighbor `a` by the neighbor
loop (matches the internal intermediate state of `neighborStep`
definitionally). -/
noncomputable def movedRecord (p : DBSTREAMParams) (x : Nat → ℝ) (t : Nat)
    (st : DBSTREAMState) (a : Nat) : DBSTREAMMicroCluster :=
  ⟨moved_center p x (getMC st.micro_clusters a).center, t,
    (getMC st.micro_clusters a).weight *
      (2 : ℝ) ^ (-p.fading_factor *
        ((t : ℝ) - ((getMC st.micro_clusters a).last_update : ℝ))) + 1⟩

/-- The state after the weight/center/timestamp writes of neighbor `a`,
before its inner shared-density loop (matches `neighborStep`'s internal
intermediate state definitionally). -/
noncomputable def neighborState (p : DBSTREAMParams) (x : Nat → ℝ) (t : Nat)
    (st : DBSTREAMState) (a : Nat) : DBSTREAMState :=
  { st with micro_clusters := aset st.micro_clusters a (movedRecord p x t st a) }

/-- The neighbor loop of `_update`, run over a duplicate-free key list
containing `i` and `j` with `i < j`, starting from a synchronized state with
no `(i, j)` shared-density entry, leaves `s[i][j] = 0` and
`s_t[i][j] = 0`. -/
lemma phaseA_new_pair (p : DBSTREAMParams) (x : Nat → ℝ) (t : Nat)
    (keys : List Nat) (st : DBSTREAMState) (i j : Nat) (hnd : keys.Nodup)
    (hi : i ∈ keys) (hj : j ∈ keys) (hij : i < j)
    (hs : alookup2 st.s i j = none) (hsync : SSync st) :
    alookup2 ((keys.foldl (fun acc a => neighborStep p keys x t acc a) st)).s i j =
      some 0 ∧
    alookup2 ((keys.foldl (fun acc a => neighborStep p keys x t acc a) st)).s_t i j =
      some 0 := by
  obtain ⟨m1, m2, heq⟩ := List.append_of_mem hi
  subst heq
  have him1 : i ∉ m1 := by
    intro hcon
    exact (List.disjoint_of_nodup_append hnd) hcon (by simp)
  have him2 : i ∉ m2 :=
    (List.nodup_cons.mp (List.Nodup.of_append_right hnd)).1
  have hmain : alookup2
      (((m1 ++ i :: m2).foldl
        (fun acc a => neighborStep p (m1 ++ i :: m2) x t acc a) st)).s i j =
        some 0 ∧
      alookup2
        (((m1 ++ i :: m2).foldl
          (fun acc a => neighborStep p (m1 ++ i :: m2) x t acc a) st)).s_t i j =
        some 0 ∧
      SSync (((m1 ++ i :: m2).foldl
        (fun acc a => neighborStep p (m1 ++ i :: m2) x t acc a) st)) := by
    refine foldl_establish
      (fun acc a => neighborStep p (m1 ++ i :: m2) x t acc a)
      (fun s' => alookup2 s'.s i j = none ∧ SSync s')
      (fun s' => alookup2 s'.s i j = some 0 ∧ alookup2 s'.s_t i j = some 0 ∧ SSync s')
      i m2 ?_ ?_ m1 st ⟨hs, hsync⟩ ?_
    · intro s' hR
      have hinner := sPairFold_establish p t i j (m1 ++ i :: m2)
        (neighborState p x t s' i) hj hij hnd hR.1 hR.2
      exact ⟨hinner.1, hinner.2.1, hinner.2.2⟩
    · intro s' b hb hQ
      obtain ⟨h1, h2, h3⟩ := hQ
      have hbi : b ≠ i := fun e => him2 (e ▸ hb)
      have hfold := sPairFold_preserve p t b (m1 ++ i :: m2)
        (neighborState p x t s' b) i j hbi h3
      exact ⟨hfold.1.trans h1, hfold.2.1.trans h2, hfold.2.2⟩
    · intro s' b hb hR
      have hbi : b ≠ i := fun e => him1 (e ▸ hb)
      have hfold := sPairFold_preserve p t b (m1 ++ i :: m2)
        (neighborState p x t s' b) i j hbi hR.2
      exact ⟨hfold.1.trans hR.1, hfold.2.2⟩
  exact ⟨hmain.1, hmain.2.1⟩

/-- When there is at least one neighbor, `_update`'s shared-density
structures are produced entirely by the neighbor loop (the collapse
prevention loop and the clock increment do not touch them). -/
lemma update_s_eq (p : DBSTREAMParams) (x : Nat → ℝ) (st : DBSTREAMState)
    (hlen : ¬ (find_fixed_radius_nn p st x).length < 1) :
    (update p x st).s =
      ((akeys (find_fixed_radius_nn p st x)).foldl
        (fun acc a =>
          neighborStep p (akeys (find_fixed_radius_nn p st x)) x st.time_stamp acc a)
        st).s ∧
    (update p x st).s_t =
      ((akeys (find_fixed_radius_nn p st x)).foldl
        (fun acc a =>
          neighborStep p (akeys (find_fixed_radius_nn p st x)) x st.time_stamp acc a)
        st).s_t := by
  simp only [update]
  rw [if_neg hlen]
  constructor
  · exact collapseFold_s p _ _ _
  · exact collapseFold_s_t p _ _ _

/-- During `_update`, an unordered neighbor pair `i < j` with no existing
shared-density entry gets a fresh entry with value `0` and timestamp `0`. -/
lemma update_new_pair_zero (p : DBSTREAMParams) (x : Nat → ℝ) (st : DBSTREAMState)
    (i j : Nat) (hnd : (akeys (find_fixed_radius_nn p st x)).Nodup)
    (hi : i ∈ akeys (find_fixed_radius_nn p st x))
    (hj : j ∈ akeys (find_fixed_radius_nn p st x))
    (hij : i < j) (hs : alookup2 st.s i j = none) (hsync : SSync st) :
    alookup2 (update p x st).s i j = some 0 ∧
    alookup2 (update p x st).s_t i j = some 0 := by
  have hlen : ¬ (find_fixed_radius_nn p st x).length < 1 := by
    intro hcon
    have hemp : find_fixed_radius_nn p st x = [] :=
      List.length_eq_zero.mp (by omega)
    rw [hemp] at hi
    simp [akeys] at hi
  obtain ⟨e1, e2⟩ := update_s_eq p x st hlen
  rw [e1, e2]
  exact phaseA_new_pair p x st.time_stamp _ st i j hnd hi hj hij hs hsync

/-- C5 (amended).  During `_update`, for every unordered pair `i < j` of
simultaneous neighbors of the processed point that has no existing
shared-density edge, a new edge is created with value `0` and with its
last-update timestamp equal to `0` — not, as the claim states, to the
current `time_stamp` (the `except KeyError` branch executes
`self.s_t[i][j] = 0`).  The hypotheses: the neighbor identifiers are the
store's (duplicate-free) keys, and `s`/`s_t` have the same outer key set, as
the code maintains. -/
theorem C5_new_edge_zero_value_zero_timestamp (p : DBSTREAMParams)
    (x : Nat → ℝ) (st : DBSTREAMState) (i j : Nat)
    (hnd : (akeys (find_fixed_radius_nn p st x)).Nodup)
    (hi : i ∈ akeys (find_fixed_radius_nn p st x))
    (hj : j ∈ akeys (find_fixed_radius_nn p st x))
    (hij : i < j) (hs : alookup2 st.s i j = none) (hsync : SSync st) :
    alookup2 (update p x st).s i j = some 0 ∧
    alookup2 (update p x st).s_t i j = some 0 :=
  update_new_pair_zero p x st i j hnd hi hj hij hs hsync

/-- C5 run parameters: `clustering_threshold = 1`, `fading_factor = 1`,
`cleanup_interval = 10` (cleanup never interferes), one dimension. -/
def pC5 : DBSTREAMParams := ⟨1, 1, 10, 1, 0.3, 1⟩

/-- C5 run after `learn_one` of the point `0`. -/
def stC5a : DBSTREAMState := ⟨1, [(0, ⟨cpoint 0, 0, 1⟩)], [], []⟩

/-- C5 run after `learn_one` of the far point `3/2`. -/
noncomputable def stC5b : DBSTREAMState :=
  ⟨2, [(0, ⟨cpoint 0, 0, 1⟩), (1, ⟨cpoint (3 / 2), 1, 1⟩)], [], []⟩

lemma stC5b_nn :
    find_fixed_radius_nn pC5 stC5b (cpoint (3 / 4)) =
      [(0, ⟨cpoint 0, 0, 1⟩), (1, ⟨cpoint (3 / 2), 1, 1⟩)] := by
  have hnear0 : distance 1 (cpoint 0) (cpoint (3 / 4)) < (1 : ℝ) := by
    refine dist_near 0 (3 / 4) ?_
    rw [abs_sub_comm, abs_of_nonneg (by norm_num)]
    norm_num
  have hnear1 : distance 1 (cpoint (3 / 2)) (cpoint (3 / 4)) < (1 : ℝ) := by
    refine dist_near (3 / 2) (3 / 4) ?_
    rw [abs_of_nonneg (by norm_num)]
    norm_num
  simp [find_fixed_radius_nn, stC5b, pC5, List.filter_cons, hnear0, hnear1]

lemma stC5b_sync : SSync stC5b := by
  intro a
  simp [stC5b]

/-- C5 counterexample.  Feed `0`, then the far point `3/2` (two creations),
then update with `3/4`, of which both micro-clusters are simultaneous
neighbors, at `time_stamp = 2`.  The pair `(0, 1)` has no existing edge; the
update creates it with value `0` and stored timestamp `0`, which differs from
the claim's asserted timestamp `time_stamp` (`= 2`). -/
theorem C5_counterexample :
    learn_one pC5 (cpoint 0) initState = .ok stC5a ∧
    learn_one pC5 (cpoint (3 / 2)) stC5a = .ok stC5b ∧
    stC5b.time_stamp = 2 ∧
    akeys (find_fixed_radius_nn pC5 stC5b (cpoint (3 / 4))) = [0, 1] ∧
    alookup2 stC5b.s 0 1 = none ∧
    alookup2 (update pC5 (cpoint (3 / 4)) stC5b).s 0 1 = some 0 ∧
    alookup2 (update pC5 (cpoint (3 / 4)) stC5b).s_t 0 1 = some 0 ∧
    alookup2 (update pC5 (cpoint (3 / 4)) stC5b).s_t 0 1 ≠ some stC5b.time_stamp := by
  have hkeys : akeys (find_fixed_radius_nn pC5 stC5b (cpoint (3 / 4))) = [0, 1] := by
    rw [stC5b_nn]
    rfl
  have hmain := update_new_pair_zero pC5 (cpoint (3 / 4)) stC5b 0 1
    (by rw [hkeys]; decide) (by rw [hkeys]; decide) (by rw [hkeys]; decide)
    (by decide) rfl stC5b_sync
  have hstep2 : learn_one pC5 (cpoint (3 / 2)) stC5a = .ok stC5b := by
    have hd : ¬ (distance 1 (cpoint 0) (cpoint (3 / 2)) < (1 : ℝ)) := by
      refine dist_far 0 (3 / 2) ?_
      rw [abs_sub_comm, abs_of_nonneg (by norm_num)]
      norm_num
    have hnn : find_fixed_radius_nn pC5 stC5a (cpoint (3 / 2)) = [] := by
      simp [find_fixed_radius_nn, stC5a, pC5, List.filter_cons, hd]
    have hupd : update pC5 (cpoint (3 / 2)) stC5a = stC5b := by
      unfold update
      rw [hnn]
      simp [stC5a, stC5b, aset]
    unfold learn_one
    rw [hupd]
    simp [stC5b, pC5]
  refine ⟨rfl, hstep2, rfl, hkeys, rfl, hmain.1, hmain.2, ?_⟩
  rw [hmain.2]
  simp [stC5b]

/-- C5 witness: the amended theorem's hypotheses hold for the concrete state
`stC5b` with query point `3/4` and the pair `(0, 1)`, and its conclusion
follows there. -/
theorem C5_new_edge_zero_value_zero_timestamp_witness :
    (akeys (find_fixed_radius_nn pC5 stC5b (cpoint (3 / 4)))).Nodup ∧
    0 ∈ akeys (find_fixed_radius_nn pC5 stC5b (cpoint (3 / 4))) ∧
    1 ∈ akeys (find_fixed_radius_nn pC5 stC5b (cpoint (3 / 4))) ∧
    (0 : Nat) < 1 ∧
    alookup2 stC5b.s 0 1 = none ∧
    SSync stC5b ∧
    (alookup2 (update pC5 (cpoint (3 / 4)) stC5b).s 0 1 = some 0 ∧
      alookup2 (update pC5 (cpoint (3 / 4)) stC5b).s_t 0 1 = some 0) := by
  have hkeys : akeys (find_fixed_radius_nn pC5 stC5b (cpoint (3 / 4))) = [0, 1] := by
    rw [stC5b_nn]
    rfl
  have hnd : (akeys (find_fixed_radius_nn pC5 stC5b (cpoint (3 / 4)))).Nodup := by
    rw [hkeys]
    decide
  have h0 : 0 ∈ akeys (find_fixed_radius_nn pC5 stC5b (cpoint (3 / 4))) := by
    rw [hkeys]
    decide
  have h1 : 1 ∈ akeys (find_fixed_radius_nn pC5 stC5b (cpoint (3 / 4))) := by
    rw [hkeys]
    decide
  exact ⟨hnd, h0, h1, by decide, rfl, stC5b_sync,
    C5_new_edge_zero_value_zero_timestamp pC5 (cpoint (3 / 4)) stC5b 0 1 hnd h0 h1
      (by decide) rfl stC5b_sync⟩

/-! ## More distance and exponential evaluation helpers -/

lemma distance1_eval (f h : Nat → ℝ) : distance 1 f h = |f 0 - h 0| := by
  simp only [distance, Finset.sum_range_one]
  exact Real.sqrt_sq_eq_abs _

lemma distance_mul_self (f h : Nat → ℝ) :
    distance 1 f h * distance 1 f h = (f 0 - h 0) ^ 2 := by
  unfold distance
  rw [Real.mul_self_sqrt (by positivity)]
  simp [Finset.sum_range_one]

/-! ## Weight/timestamp projections of the store

The collapse-prevention loop only rewrites centers; these lemmas let the
cleanup decision (which reads only weights and `last_update`) be taken on
the state before that loop. -/

/-- The store with centers erased: keys, weights and update stamps. -/
def wl (l : List (Nat × DBSTREAMMicroCluster)) : List (Nat × ℝ × Nat) :=
  l.map (fun pr => (pr.1, pr.2.weight, pr.2.last_update))

lemma akeys_eq_of_wl {l l' : List (Nat × DBSTREAMMicroCluster)}
    (h : wl l = wl l') : akeys l = akeys l' := by
  have h1 : (wl l).map Prod.fst = (wl l').map Prod.fst := by rw [h]
  simpa [wl, akeys, List.map_map, Function.comp] using h1

lemma wl_aset_center (l : List (Nat × DBSTREAMMicroCluster)) (k : Nat)
    (c : Nat → ℝ) (hk : k ∈ akeys l) :
    wl (aset l k { getMC l k with center := c }) = wl l := by
  induction l with
  | nil => simp [akeys] at hk
  | cons hd rest ih =>
    obtain ⟨k0, v0⟩ := hd
    by_cases h0 : k0 = k
    · subst h0
      simp [aset_cons, wl, getMC, alookup_cons]
    · have hk' : k ∈ akeys rest := by
        simp only [akeys_cons, List.mem_cons] at hk
        rcases hk with h | h
        · exact absurd h.symm h0
        · exact h
      have hg : getMC ((k0, v0) :: rest) k = getMC rest k := by
        simp [getMC, alookup_cons, h0]
      rw [hg]
      simp only [aset_cons, if_neg h0, wl, List.map_cons]
      rw [show List.map (fun pr : Nat × DBSTREAMMicroCluster =>
        (pr.1, pr.2.weight, pr.2.last_update))
        (aset rest k { getMC rest k with center := c }) = wl
        (aset rest k { getMC rest k with center := c }) from rfl, ih hk']
      rfl

lemma collapseStep_wl (p : DBSTREAMParams) (cc : Nat → Nat → ℝ) (i j : Nat)
    (st : DBSTREAMState) (hi : i ∈ akeys st.micro_clusters)
    (hj : j ∈ akeys st.micro_clusters) (hij : i ≠ j) :
    wl (collapseStep p cc i j st).micro_clusters = wl st.micro_clusters := by
  unfold collapseStep
  split
  · have hg : getMC (aset st.micro_clusters i
        { getMC st.micro_clusters i with center := cc i }) j =
        getMC st.micro_clusters j := by
      unfold getMC
      rw [alookup_aset_ne _ _ _ _ (fun e => hij e)]
    calc wl (aset (aset st.micro_clusters i
          { getMC st.micro_clusters i with center := cc i }) j
          { getMC st.micro_clusters j with center := cc j })
        = wl (aset (aset st.micro_clusters i
            { getMC st.micro_clusters i with center := cc i }) j
            { getMC (aset st.micro_clusters i
              { getMC st.micro_clusters i with center := cc i }) j with
              center := cc j }) := by rw [hg]
      _ = wl (aset st.micro_clusters i
            { getMC st.micro_clusters i with center := cc i }) :=
          wl_aset_center _ _ _ (mem_akeys_aset _ hj)
      _ = wl st.micro_clusters := wl_aset_center _ _ _ hi
  · rfl

lemma collapseFold_wl (p : DBSTREAMParams) (cc : Nat → Nat → ℝ)
    (keys : List Nat) (st : DBSTREAMState)
    (hkeys : ∀ k ∈ keys, k ∈ akeys st.micro_clusters) :
    wl ((keys.foldl
      (fun acc1 i =>
        keys.foldl
          (fun acc2 j => if j > i then collapseStep p cc i j acc2 else acc2) acc1)
      st).micro_clusters) = wl st.micro_clusters := by
  refine foldl_preserve _
    (fun s' => wl s'.micro_clusters = wl st.micro_clusters) keys st rfl ?_
  intro s1 i hi hP1
  refine foldl_preserve _
    (fun s' => wl s'.micro_clusters = wl st.micro_clusters) keys s1 hP1 ?_
  intro s2 j hj hP2
  by_cases hji : j > i
  · rw [if_pos hji]
    have hk2 : ∀ k ∈ keys, k ∈ akeys s2.micro_clusters := by
      intro k hk
      rw [akeys_eq_of_wl hP2]
      exact hkeys k hk
    rw [collapseStep_wl p cc i j s2 (hk2 i hi) (hk2 j hj) (Nat.ne_of_lt hji)]
    exact hP2
  · rw [if_neg hji]
    exact hP2

lemma phaseA_akeys_mono (p : DBSTREAMParams) (keys : List Nat) (x : Nat → ℝ)
    (t : Nat) (st : DBSTREAMState) :
    ∀ k ∈ akeys st.micro_clusters,
      k ∈ akeys ((keys.foldl (fun acc a => neighborStep p keys x t acc a)
        st).micro_clusters) := by
  refine foldl_preserve _
    (fun s' => ∀ k ∈ akeys st.micro_clusters, k ∈ akeys s'.micro_clusters)
    keys st (fun k hk => hk) ?_
  intro s' a _ hP k hk
  rw [neighborStep_micro_clusters]
  exact mem_akeys_aset _ (hP k hk)

lemma update_time_stamp (p : DBSTREAMParams) (x : Nat → ℝ) (st : DBSTREAMState) :
    (update p x st).time_stamp = st.time_stamp + 1 := by
  simp only [update]
  split <;> rfl

/-- The weights and update stamps of the store after `_update` (neighbor
branch) are those left by the neighbor loop: the collapse-prevention loop
only rewrites centers. -/
lemma update_wl (p : DBSTREAMParams) (x : Nat → ℝ) (st : DBSTREAMState)
    (hlen : ¬ (find_fixed_radius_nn p st x).length < 1)
    (hsub : ∀ k ∈ akeys (find_fixed_radius_nn p st x), k ∈ akeys st.micro_clusters) :
    wl (update p x st).micro_clusters =
      wl (((akeys (find_fixed_radius_nn p st x)).foldl
        (fun acc a =>
          neighborStep p (akeys (find_fixed_radius_nn p st x)) x st.time_stamp acc a)
        st).micro_clusters) := by
  simp only [update]
  rw [if_neg hlen]
  exact collapseFold_wl p _ _ _
    (fun k hk => phaseA_akeys_mono p _ x st.time_stamp st k (hsub k hk))

lemma isWeak_congr (p : DBSTREAMParams) (t : Nat) (mc mc' : DBSTREAMMicroCluster)
    (hw : mc.weight = mc'.weight) (hl : mc.last_update = mc'.last_update) :
    isWeak p t mc ↔ isWeak p t mc' := by
  unfold isWeak
  rw [hw, hl]

lemma firstWeak_wl (p : DBSTREAMParams) (t : Nat) :
    ∀ (l l' : List (Nat × DBSTREAMMicroCluster)), wl l = wl l' →
      firstWeak p t l = firstWeak p t l' := by
  intro l
  induction l with
  | nil =>
    intro l' h
    cases l' with
    | nil => rfl
    | cons hd tl => simp [wl] at h
  | cons hd tl ih =>
    intro l' h
    cases l' with
    | nil => simp [wl] at h
    | cons hd' tl' =>
      obtain ⟨k, mc⟩ := hd
      obtain ⟨k', mc'⟩ := hd'
      simp only [wl, List.map_cons, List.cons.injEq, Prod.mk.injEq] at h
      obtain ⟨⟨hk, hw, hl⟩, htl⟩ := h
      unfold firstWeak
      rw [hk]
      by_cases hweak : isWeak p t mc
      · rw [if_pos hweak, if_pos ((isWeak_congr p t mc mc' hw hl).mp hweak)]
      · rw [if_neg hweak,
          if_neg (fun hc => hweak ((isWeak_congr p t mc mc' hw hl).mpr hc))]
        exact ih tl' htl

/-- A store whose weight/timestamp projection is a concrete two-entry list
is itself a two-entry list with those keys, weights and stamps. -/
lemma wl_two_shape {l : List (Nat × DBSTREAMMicroCluster)} {k1 k2 : Nat}
    {w1 w2 : ℝ} {u1 u2 : Nat}
    (h : wl l = [(k1, w1, u1), (k2, w2, u2)]) :
    ∃ a b, l = [(k1, a), (k2, b)] ∧ a.weight = w1 ∧ b.weight = w2 := by
  cases l with
  | nil => simp [wl] at h
  | cons hd tl =>
    cases tl with
    | nil => simp [wl] at h
    | cons hd2 tl2 =>
      cases tl2 with
      | nil =>
        obtain ⟨ka, va⟩ := hd
        obtain ⟨kb, vb⟩ := hd2
        simp only [wl, List.map_cons, List.map_nil, List.cons.injEq,
          Prod.mk.injEq] at h
        obtain ⟨⟨e1, e2, _⟩, ⟨e4, e5, _⟩, _⟩ := h
        exact ⟨va, vb, by rw [e1, e4], e2, e5⟩
      | cons hd3 tl3 => simp [wl] at h

/-! ## Claim C1 -/

/-- C1 run parameters. -/
def pC1 : DBSTREAMParams := ⟨1, 1, 10, 1, 0.3, 1⟩

/-- C1 run state: two micro-clusters of weight `2` with a strong
shared-density edge (`s[0][1] = 10`), so that reclustering puts both in one
macro-cluster. -/
noncomputable def stC1 : DBSTREAMState :=
  ⟨20, [(0, ⟨cpoint 0, 19, 2⟩), (1, ⟨cpoint (1 / 2), 19, 2⟩)],
    [(0, [(1, 10)])], [(0, [(1, 19)])]⟩

/-- The record that `_generate_clusters_from_labels` writes over the stored
micro-cluster `0` when merging the label group `{0, 1}` (weight `4 = 2 + 2`,
center the weighted average). -/
noncomputable def mcC1merged : DBSTREAMMicroCluster :=
  ⟨fun i => (cpoint 0 i * 2 + cpoint (1 / 2) i * 2) / 4, 19, 4⟩

/-- The state `predict_one` leaves behind on `stC1`: the stored entry `0` has
been overwritten by the merged macro-cluster. -/
noncomputable def stC1after : DBSTREAMState :=
  ⟨20, [(0, mcC1merged), (1, ⟨cpoint (1 / 2), 19, 2⟩)],
    [(0, [(1, 10)])], [(0, [(1, 19)])]⟩

lemma stC1_wam : generate_weighted_adjacency_matrix pC1 stC1 = some [(0, [(1, 5)])] := by
  norm_num [generate_weighted_adjacency_matrix, stC1, pC1, List.foldlM, aset2, aset,
    alookup, alookup2]

lemma stC1_labels :
    generate_labels (akeys stC1.micro_clusters) [(0, [(1, (5 : ℝ))])] =
      [(0, some 0), (1, some 0)] := by
  decide

lemma stC1_clusters :
    generate_clusters_from_labels stC1.micro_clusters [(0, some 0), (1, some 0)] =
      some (1, [(0, mcC1merged)],
        [(0, mcC1merged), (1, ⟨cpoint (1 / 2), 19, 2⟩)]) := by
  norm_num [generate_clusters_from_labels, stC1, mcC1merged, List.foldlM, List.mapM,
    List.mapM.loop, List.max?, List.filterMap, List.findSome?, aset, alookup,
    DBSTREAMMicroCluster.merge]

lemma stC1_recluster :
    recluster pC1 stC1 =
      some ((1, [(0, mcC1merged)], [(0, mcC1merged.center)]), stC1after) := by
  unfold recluster
  rw [stC1_wam]
  dsimp only
  rw [stC1_labels, stC1_clusters]
  simp [stC1, stC1after]

/-- C1.  The claim states that `predict_one` (via `_recluster`) leaves every
stored micro-cluster unchanged, macro-clusters being built by replacing, not
mutating, the stored objects.  In the code, `_generate_clusters_from_labels`
takes `macro_cluster = mcs_with_label_i[0]` — a reference to the stored
micro-cluster object — and calls `merge` on it, which mutates that object in
place.  On `stC1`, whose two micro-clusters form one label group,
`predict_one` succeeds (returning label `0`) and afterwards the stored entry
`0` has weight `4` instead of its previous weight `2` and a center moved to
the weighted average (`1/4` instead of `0` in coordinate `0`). -/
theorem C1_predict_mutates_store :
    (alookup stC1.micro_clusters 0).map DBSTREAMMicroCluster.weight = some 2 ∧
    predict_one pC1 (cpoint 0) stC1 = some (0, stC1after) ∧
    (alookup stC1after.micro_clusters 0).map DBSTREAMMicroCluster.weight = some 4 ∧
    (alookup stC1after.micro_clusters 0).map DBSTREAMMicroCluster.weight ≠
      (alookup stC1.micro_clusters 0).map DBSTREAMMicroCluster.weight ∧
    (alookup stC1after.micro_clusters 0).map (fun mc => mc.center 0) ≠
      (alookup stC1.micro_clusters 0).map (fun mc => mc.center 0) := by
  have hpred : predict_one pC1 (cpoint 0) stC1 = some (0, stC1after) := by
    unfold predict_one
    rw [stC1_recluster]
    simp
  refine ⟨by norm_num [stC1, alookup], hpred, by norm_num [stC1after, mcC1merged, alookup],
    ?_, ?_⟩
  · norm_num [stC1, stC1after, mcC1merged, alookup]
  · norm_num [stC1, stC1after, mcC1merged, alookup, cpoint]

/-! ## Claim C8 -/

/-- A reduction order for merging a group of micro-clusters by repeated
pairwise `merge`: each node merges the results of its two subtrees (this
covers every association order and every permutation of the group). -/
inductive MergeTree where
  | leaf : DBSTREAMMicroCluster → MergeTree
  | node : MergeTree → MergeTree → MergeTree

/-- The group being reduced, in left-to-right order. -/
def MergeTree.leaves : MergeTree → List DBSTREAMMicroCluster
  | .leaf mc => [mc]
  | .node t1 t2 => t1.leaves ++ t2.leaves

/-- Evaluating a reduction order with the `merge` of the code; `none` models
a `ZeroDivisionError` propagating out. -/
noncomputable def MergeTree.eval : MergeTree → Option DBSTREAMMicroCluster
  | .leaf mc => some mc
  | .node t1 t2 =>
    match t1.eval, t2.eval with
    | some a, some b => a.merge b
    | _, _ => none

lemma MergeTree.leaves_ne_nil (t : MergeTree) : t.leaves ≠ [] := by
  induction t with
  | leaf mc => simp [leaves]
  | node t1 t2 ih1 ih2 => simp [leaves, ih1]

lemma mergeTree_eval_spec (t : MergeTree)
    (hpos : ∀ mc ∈ t.leaves, 0 < mc.weight) :
    ∃ mc, t.eval = some mc ∧
      mc.weight = (t.leaves.map DBSTREAMMicroCluster.weight).sum ∧
      ∀ d, mc.center d =
        (t.leaves.map (fun m => m.center d * m.weight)).sum /
          (t.leaves.map DBSTREAMMicroCluster.weight).sum := by
  induction t with
  | leaf mc =>
    refine ⟨mc, rfl, by simp [MergeTree.leaves], ?_⟩
    intro d
    have hw : mc.weight ≠ 0 := (hpos mc (by simp [MergeTree.leaves])).ne'
    simp only [MergeTree.leaves, List.map_cons, List.map_nil, List.sum_cons,
      List.sum_nil, add_zero]
    field_simp
  | node t1 t2 ih1 ih2 =>
    obtain ⟨a, ha, haw, hac⟩ := ih1
      (fun mc hmc => hpos mc (by simp [MergeTree.leaves, hmc]))
    obtain ⟨b, hb, hbw, hbc⟩ := ih2
      (fun mc hmc => hpos mc (by simp [MergeTree.leaves, hmc]))
    have hW1 : 0 < (t1.leaves.map DBSTREAMMicroCluster.weight).sum := by
      refine List.sum_pos _ ?_ (by simp [t1.leaves_ne_nil])
      intro w hw
      obtain ⟨mc, hmc, rfl⟩ := List.mem_map.mp hw
      exact hpos mc (by simp [MergeTree.leaves, hmc])
    have hW2 : 0 < (t2.leaves.map DBSTREAMMicroCluster.weight).sum := by
      refine List.sum_pos _ ?_ (by simp [t2.leaves_ne_nil])
      intro w hw
      obtain ⟨mc, hmc, rfl⟩ := List.mem_map.mp hw
      exact hpos mc (by simp [MergeTree.leaves, hmc])
    have hwa : a.weight = (t1.leaves.map DBSTREAMMicroCluster.weight).sum := haw
    have hwb : b.weight = (t2.leaves.map DBSTREAMMicroCluster.weight).sum := hbw
    have hsum : a.weight + b.weight ≠ 0 := by
      rw [hwa, hwb]
      positivity
    refine ⟨⟨fun i => (a.center i * a.weight + b.center i * b.weight) /
        (a.weight + b.weight), a.last_update, a.weight + b.weight⟩, ?_, ?_, ?_⟩
    · simp only [MergeTree.eval, ha, hb, DBSTREAMMicroCluster.merge, if_neg hsum]
    · show a.weight + b.weight = _
      simp only [MergeTree.leaves, List.map_append, List.sum_append]
      rw [hwa, hwb]
    · intro d
      show (a.center d * a.weight + b.center d * b.weight) / (a.weight + b.weight) = _
      simp only [MergeTree.leaves, List.map_append, List.sum_append]
      rw [hac d, hbc d, hwa, hwb]
      field_simp


/-- C8 (amended).  For every group of micro-clusters with strictly positive
weights, reducing the group by repeated pairwise `merge` — in any
association order — yields a defined result whose weight is the exact sum of
the input weights and whose center is the weight-weighted component-wise
average of the input centers; and any two reduction orders over the same
group (any permutation, any association) agree on weight and center.  The
claim's original domain, non-negative weights, is refuted separately: a pair
with weight sum `0` raises `ZeroDivisionError`, and whether that happens
depends on the merge order. -/
theorem C8_merge_weighted_average (t : MergeTree)
    (hpos : ∀ mc ∈ t.leaves, 0 < mc.weight) :
    ∃ mc, t.eval = some mc ∧
      mc.weight = (t.leaves.map DBSTREAMMicroCluster.weight).sum ∧
      (∀ d, mc.center d =
        (t.leaves.map (fun m => m.center d * m.weight)).sum /
          (t.leaves.map DBSTREAMMicroCluster.weight).sum) ∧
      ∀ (t' : MergeTree) (mc' : DBSTREAMMicroCluster),
        (∀ m ∈ t'.leaves, 0 < m.weight) → t'.leaves.Perm t.leaves →
        t'.eval = some mc' →
        mc'.weight = mc.weight ∧ ∀ d, mc'.center d = mc.center d := by
  obtain ⟨mc, hev, hw, hc⟩ := mergeTree_eval_spec t hpos
  refine ⟨mc, hev, hw, hc, ?_⟩
  intro t' mc' hpos' hperm hev'
  obtain ⟨mc'', hev'', hw'', hc''⟩ := mergeTree_eval_spec t' hpos'
  rw [hev''] at hev'
  rw [Option.some.injEq] at hev'
  subst hev'
  have hwsum : (t'.leaves.map DBSTREAMMicroCluster.weight).sum =
      (t.leaves.map DBSTREAMMicroCluster.weight).sum :=
    (hperm.map DBSTREAMMicroCluster.weight).sum_eq
  constructor
  · rw [hw'', hw, hwsum]
  · intro d
    have hcsum : (t'.leaves.map (fun m => m.center d * m.weight)).sum =
        (t.leaves.map (fun m => m.center d * m.weight)).sum :=
      (hperm.map (fun m => m.center d * m.weight)).sum_eq
    rw [hc'' d, hc d, hwsum, hcsum]

/-- A micro-cluster at the origin with the given weight. -/
noncomputable def mcW (w : ℝ) : DBSTREAMMicroCluster := ⟨cpoint 0, 0, w⟩

/-- C8 counterexample order 1: merging the two weight-`0` members first
makes the first pairwise merge divide by `0 + 0`. -/
noncomputable def tC8bad : MergeTree :=
  .node (.node (.leaf (mcW 0)) (.leaf (mcW 0))) (.leaf (mcW 1))

/-- C8 counterexample order 2: the permuted order merges weight `1` with
weight `0` twice; every pairwise merge has positive total weight. -/
noncomputable def tC8good : MergeTree :=
  .node (.node (.leaf (mcW 1)) (.leaf (mcW 0))) (.leaf (mcW 0))

/-- C8 counterexample.  The claim quantifies over groups with non-negative
weights and asserts a result independent of the order of pairwise merging.
For the group of weights `{0, 0, 1}` (non-negative), one merge order raises
`ZeroDivisionError` (dividing by the weight sum `0 + 0`) while a permuted
order of the same group succeeds, so the reduction is neither defined nor
order-independent on the claim's stated domain. -/
theorem C8_counterexample :
    tC8bad.leaves.Perm tC8good.leaves ∧
    (∀ mc ∈ tC8bad.leaves, 0 ≤ mc.weight) ∧
    tC8bad.eval = none ∧
    (tC8good.eval).isSome = true ∧
    tC8bad.eval ≠ tC8good.eval := by
  have hbad : tC8bad.eval = none := by
    norm_num [tC8bad, MergeTree.eval, DBSTREAMMicroCluster.merge, mcW]
  have hgood : (tC8good.eval).isSome = true := by
    norm_num [tC8good, MergeTree.eval, DBSTREAMMicroCluster.merge, mcW]
  refine ⟨?_, ?_, hbad, hgood, ?_⟩
  · show ([mcW 0] ++ [mcW 0] ++ [mcW 1]).Perm ([mcW 1] ++ [mcW 0] ++ [mcW 0])
    have h1 : ([mcW 0] ++ [mcW 0] ++ [mcW 1]).Perm ([mcW 1] ++ ([mcW 0] ++ [mcW 0])) :=
      List.perm_append_comm
    have h2 : ([mcW 1] ++ ([mcW 0] ++ [mcW 0])) = ([mcW 1] ++ [mcW 0] ++ [mcW 0]) := by
      simp
    rw [h2] at h1
    exact h1
  · intro mc hmc
    simp only [tC8bad, MergeTree.leaves, List.mem_append, List.mem_singleton] at hmc
    rcases hmc with (h | h) | h <;> rw [h] <;> norm_num [mcW]
  · rw [hbad]
    intro hcon
    rw [← hcon] at hgood
    simp at hgood

/-- C8 witness group: weights `1` and `3` at centers `0` and `2`. -/
noncomputable def tC8w : MergeTree :=
  .node (.leaf ⟨cpoint 0, 0, 1⟩) (.leaf ⟨cpoint 2, 0, 3⟩)

/-- C8 witness: the amended theorem applies to the two-element group with
weights `1` and `3`. -/
theorem C8_merge_weighted_average_witness :
    (∀ mc ∈ tC8w.leaves, 0 < mc.weight) ∧
    ∃ mc, tC8w.eval = some mc ∧
      mc.weight = (tC8w.leaves.map DBSTREAMMicroCluster.weight).sum ∧
      (∀ d, mc.center d =
        (tC8w.leaves.map (fun m => m.center d * m.weight)).sum /
          (tC8w.leaves.map DBSTREAMMicroCluster.weight).sum) ∧
      ∀ (t' : MergeTree) (mc' : DBSTREAMMicroCluster),
        (∀ m ∈ t'.leaves, 0 < m.weight) → t'.leaves.Perm tC8w.leaves →
        t'.eval = some mc' →
        mc'.weight = mc.weight ∧ ∀ d, mc'.center d = mc.center d := by
  have hpos : ∀ mc ∈ tC8w.leaves, 0 < mc.weight := by
    intro mc hmc
    simp only [tC8w, MergeTree.leaves, List.mem_append, List.mem_singleton] at hmc
    rcases hmc with h | h <;> rw [h] <;> norm_num
  exact ⟨hpos, C8_merge_weighted_average tC8w hpos⟩


/-! ## Claim C6 -/

/-- C6 run parameters: `clustering_threshold = 1`, `fading_factor = -1`,
`cleanup_interval = 4`. -/
def pC6 : DBSTREAMParams := ⟨1, -1, 4, 1, 0.3, 1⟩

/-- C6 run after `learn_one` of the point `0`. -/
def stC6a : DBSTREAMState := ⟨1, [(0, ⟨cpoint 0, 0, 1⟩)], [], []⟩

/-- C6 run after `learn_one` of the far point `3/2`. -/
noncomputable def stC6b : DBSTREAMState :=
  ⟨2, [(0, ⟨cpoint 0, 0, 1⟩), (1, ⟨cpoint (3 / 2), 1, 1⟩)], [], []⟩

lemma pC6_ff : pC6.fading_factor = -1 := rfl

lemma pC6_r : pC6.clustering_threshold = 1 := rfl

lemma pC6_dim : pC6.dim = 1 := rfl

lemma gaussC6_0 :
    gaussian_neighborhood pC6 (cpoint (3 / 4)) (cpoint 0) =
      Real.exp (-(81 / 32)) := by
  unfold gaussian_neighborhood
  simp only [pC6]
  rw [distance_mul_self]
  congr 1
  norm_num [cpoint]

lemma gaussC6_1 :
    gaussian_neighborhood pC6 (cpoint (3 / 4)) (cpoint (3 / 2)) =
      Real.exp (-(81 / 32)) := by
  unfold gaussian_neighborhood
  simp only [pC6]
  rw [distance_mul_self]
  congr 1
  norm_num [cpoint]

lemma gC6_le_third : Real.exp (-(81 / 32) : ℝ) ≤ 1 / 3 := by
  have h := Real.add_one_le_exp (81 / 32 : ℝ)
  have h3 : (3 : ℝ) ≤ Real.exp (81 / 32) := le_trans (by norm_num) h
  rw [Real.exp_neg]
  calc (Real.exp (81 / 32 : ℝ))⁻¹ ≤ (3 : ℝ)⁻¹ := inv_anti₀ (by norm_num) h3
    _ = 1 / 3 := by norm_num

lemma gC6_lt_one : Real.exp (-(81 / 32) : ℝ) < 1 := by
  rw [Real.exp_lt_one_iff]
  norm_num

/-- After the third point moved both centers toward `3/4`, they are still at
least `clustering_threshold` apart, so the collapse-prevention check does not
revert them. -/
lemma hB3 : ¬ (distance 1 (moved_center pC6 (cpoint (3 / 4)) (cpoint 0))
    (moved_center pC6 (cpoint (3 / 4)) (cpoint (3 / 2))) < 1) := by
  have h0 : moved_center pC6 (cpoint (3 / 4)) (cpoint 0) 0 =
      0 + Real.exp (-(81 / 32)) * (3 / 4 - 0) := by
    unfold moved_center
    rw [gaussC6_0]
    simp [cpoint]
  have h1 : moved_center pC6 (cpoint (3 / 4)) (cpoint (3 / 2)) 0 =
      3 / 2 + Real.exp (-(81 / 32)) * (3 / 4 - 3 / 2) := by
    unfold moved_center
    rw [gaussC6_1]
    simp [cpoint]
  rw [distance1_eval, h0, h1]
  have hle := gC6_le_third
  have hpos := Real.exp_pos (-(81 / 32) : ℝ)
  rw [abs_of_nonpos (by nlinarith)]
  refine not_lt.mpr ?_
  nlinarith

lemma stC6b_nn :
    find_fixed_radius_nn pC6 stC6b (cpoint (3 / 4)) =
      [(0, ⟨cpoint 0, 0, 1⟩), (1, ⟨cpoint (3 / 2), 1, 1⟩)] := by
  have hnear0 : distance 1 (cpoint 0) (cpoint (3 / 4)) < (1 : ℝ) := by
    refine dist_near 0 (3 / 4) ?_
    rw [abs_sub_comm, abs_of_nonneg (by norm_num)]
    norm_num
  have hnear1 : distance 1 (cpoint (3 / 2)) (cpoint (3 / 4)) < (1 : ℝ) := by
    refine dist_near (3 / 2) (3 / 4) ?_
    rw [abs_of_nonneg (by norm_num)]
    norm_num
  simp [find_fixed_radius_nn, stC6b, pC6, List.filter_cons, hnear0, hnear1]

/-- Center of micro-cluster `0` after the third point. -/
noncomputable def mC6c0 : Nat → ℝ := moved_center pC6 (cpoint (3 / 4)) (cpoint 0)

/-- Center of micro-cluster `1` after the third point. -/
noncomputable def mC6c1 : Nat → ℝ :=
  moved_center pC6 (cpoint (3 / 4)) (cpoint (3 / 2))

/-- C6 run after `learn_one` of `3/4` (both micro-clusters were neighbors):
weights decayed-and-bumped to `5` and `3` (with `fading_factor = -1`), and
the shared-density pair `(0, 1)` freshly created with value `0`. -/
noncomputable def stC6c : DBSTREAMState :=
  ⟨3, [(0, ⟨mC6c0, 2, 5⟩), (1, ⟨mC6c1, 2, 3⟩)], [(0, [(1, 0)])], [(0, [(1, 0)])]⟩

lemma stC6c_upd : update pC6 (cpoint (3 / 4)) stC6b = stC6c := by
  unfold update
  rw [stC6b_nn]
  norm_num [stC6c, mC6c0, mC6c1, stC6b, pC6_ff, pC6_r, pC6_dim, List.foldl,
    neighborStep, sPairUpdate, collapseStep, getMC, alookup_cons, alookup_nil,
    alookup2, aset_cons, aset_nil, aset2, akeys_cons, akeys_nil, hB3]

lemma mC6c0_eval : mC6c0 0 = 0 + Real.exp (-(81 / 32)) * (3 / 4 - 0) := by
  unfold mC6c0 moved_center
  rw [gaussC6_0]
  simp [cpoint]

lemma mC6c1_eval : mC6c1 0 = 3 / 2 + Real.exp (-(81 / 32)) * (3 / 4 - 3 / 2) := by
  unfold mC6c1 moved_center
  rw [gaussC6_1]
  simp [cpoint]

lemma stC6c_nn :
    find_fixed_radius_nn pC6 stC6c (cpoint (3 / 4)) =
      [(0, ⟨mC6c0, 2, 5⟩), (1, ⟨mC6c1, 2, 3⟩)] := by
  have hpos := Real.exp_pos (-(81 / 32) : ℝ)
  have hlt := gC6_lt_one
  have hd0 : distance 1 mC6c0 (cpoint (3 / 4)) < (1 : ℝ) := by
    rw [distance1_eval, mC6c0_eval]
    have : (0 : ℝ) + Real.exp (-(81 / 32)) * (3 / 4 - 0) - cpoint (3 / 4) 0 =
        Real.exp (-(81 / 32)) * (3 / 4) - 3 / 4 := by
      simp [cpoint]
    rw [this, abs_of_nonpos (by nlinarith)]
    nlinarith
  have hd1 : distance 1 mC6c1 (cpoint (3 / 4)) < (1 : ℝ) := by
    rw [distance1_eval, mC6c1_eval]
    have : (3 : ℝ) / 2 + Real.exp (-(81 / 32)) * (3 / 4 - 3 / 2) - cpoint (3 / 4) 0 =
        3 / 4 - Real.exp (-(81 / 32)) * (3 / 4) := by
      simp [cpoint]
      ring
    rw [this, abs_of_nonneg (by nlinarith)]
    nlinarith
  simp [find_fixed_radius_nn, stC6c, pC6, List.filter_cons, hd0, hd1]

/-- Center of micro-cluster `0` after the fourth point. -/
noncomputable def mC6d0 : Nat → ℝ := moved_center pC6 (cpoint (3 / 4)) mC6c0

/-- Center of micro-cluster `1` after the fourth point. -/
noncomputable def mC6d1 : Nat → ℝ := moved_center pC6 (cpoint (3 / 4)) mC6c1

/-- The state after the neighbor loop of the fourth point (before collapse
prevention and the clock increment): weights `11` and `7`, shared density of
the pair `(0, 1)` bumped to `1` with timestamp `3`. -/
noncomputable def stA4lit : DBSTREAMState :=
  ⟨3, [(0, ⟨mC6d0, 3, 11⟩), (1, ⟨mC6d1, 3, 7⟩)], [(0, [(1, 1)])], [(0, [(1, 3)])]⟩

lemma stC6c_phaseA :
    ([0, 1].foldl
      (fun acc a => neighborStep pC6 [0, 1] (cpoint (3 / 4)) stC6c.time_stamp acc a)
      stC6c) = stA4lit := by
  norm_num [stA4lit, mC6d0, mC6d1, stC6c, pC6_ff, List.foldl, neighborStep,
    sPairUpdate, getMC, alookup_cons, alookup_nil, alookup2, aset_cons, aset_nil,
    aset2]

/-- C6.  The claim states that whenever cleanup removes a micro-cluster it
also drops or invalidates every shared-density edge referencing it, so that
no edge references an identifier absent from the store.  In the code the
micro-cluster loop of `_cleanup` raises after its pop and the edge loop is
never reached — and even that loop never deletes edges by endpoint.  The
four-point run `0, 3/2, 3/4, 3/4` with `fading_factor = -1`,
`cleanup_interval = 4` produces a shared-density edge `(0, 1)` with value `1`
and then a cleanup that removes micro-cluster `0`: the error state still
holds `s[0][1] = 1` although identifier `0` is gone from the store. -/
theorem C6_dangling_edge_eval :
    learn_one pC6 (cpoint 0) initState = .ok stC6a ∧
    learn_one pC6 (cpoint (3 / 2)) stC6a = .ok stC6b ∧
    learn_one pC6 (cpoint (3 / 4)) stC6b = .ok stC6c ∧
    ∃ stErr, learn_one pC6 (cpoint (3 / 4)) stC6c = .error stErr ∧
      alookup stErr.micro_clusters 0 = none ∧
      alookup2 stErr.s 0 1 = some 1 ∧
      0 ∈ akeys stErr.s := by
  refine ⟨rfl, ?_, ?_, ?_⟩
  · have hd : ¬ (distance 1 (cpoint 0) (cpoint (3 / 2)) < (1 : ℝ)) := by
      refine dist_far 0 (3 / 2) ?_
      rw [abs_sub_comm, abs_of_nonneg (by norm_num)]
      norm_num
    have hnn : find_fixed_radius_nn pC6 stC6a (cpoint (3 / 2)) = [] := by
      simp [find_fixed_radius_nn, stC6a, pC6, List.filter_cons, hd]
    have hupd : update pC6 (cpoint (3 / 2)) stC6a = stC6b := by
      unfold update
      rw [hnn]
      simp [stC6a, stC6b, aset]
    unfold learn_one
    rw [hupd]
    simp [stC6b, pC6]
  · unfold learn_one
    rw [stC6c_upd]
    simp [stC6c, pC6]
  · have hlen4 : ¬ (find_fixed_radius_nn pC6 stC6c (cpoint (3 / 4))).length < 1 := by
      rw [stC6c_nn]
      simp
    have hkeys4 : akeys (find_fixed_radius_nn pC6 stC6c (cpoint (3 / 4))) = [0, 1] := by
      rw [stC6c_nn]
      rfl
    have hsub4 : ∀ k ∈ akeys (find_fixed_radius_nn pC6 stC6c (cpoint (3 / 4))),
        k ∈ akeys stC6c.micro_clusters := by
      rw [hkeys4]
      intro k hk
      simpa [stC6c, akeys] using hk
    have hseq := update_s_eq pC6 (cpoint (3 / 4)) stC6c hlen4
    have hwl := update_wl pC6 (cpoint (3 / 4)) stC6c hlen4 hsub4
    rw [hkeys4] at hseq hwl
    rw [stC6c_phaseA] at hseq hwl
    have hwllit : wl stA4lit.micro_clusters = [(0, 11, 3), (1, 7, 3)] := by
      simp [wl, stA4lit]
    obtain ⟨mcA, mcB, hshape, hwA, hwB⟩ := wl_two_shape (hwl.trans hwllit)
    have ht4 : (update pC6 (cpoint (3 / 4)) stC6c).time_stamp = 4 := by
      rw [update_time_stamp]
      rfl
    have hfw : firstWeak pC6 4 (update pC6 (cpoint (3 / 4)) stC6c).micro_clusters =
        some 0 := by
      rw [firstWeak_wl pC6 4 _ stA4lit.micro_clusters (hwl.trans rfl)]
      have hw0 : isWeak pC6 4 (⟨mC6d0, 3, 11⟩ : DBSTREAMMicroCluster) :=
        isWeak_eval pC6 4 _ (-1) 4 (by norm_num [pC6]) (by norm_num [pC6])
          (by norm_num)
      simp only [stA4lit]
      unfold firstWeak
      rw [if_pos hw0]
    have htrig : (update pC6 (cpoint (3 / 4)) stC6c).time_stamp %
        pC6.cleanup_interval = 0 := by
      rw [ht4]
      rfl
    refine ⟨⟨4, aremove (update pC6 (cpoint (3 / 4)) stC6c).micro_clusters 0,
      (update pC6 (cpoint (3 / 4)) stC6c).s, (update pC6 (cpoint (3 / 4)) stC6c).s_t⟩,
      ?_, ?_, ?_, ?_⟩
    · unfold learn_one
      rw [if_pos htrig]
      unfold cleanup
      rw [ht4, hfw]
    · rw [hshape]
      simp [aremove, alookup_cons]
    · rw [hseq.1]
      simp [stA4lit, alookup2, alookup]
    · rw [hseq.1]
      simp [stA4lit, akeys]

/-! ## C4: the collapse-prevention decisions are sequential

Quartic upper and lower bounds on the exponential, enough to separate the
concrete Gaussian neighborhood values from the rational thresholds that the
collapse-prevention comparisons reduce to. -/

lemma one_add_quarter_pow_le_exp (x : ℝ) (hx : 0 ≤ x) :
    (1 + x / 4) ^ (4 : ℕ) ≤ Real.exp x := by
  have h1 : 1 + x / 4 ≤ Real.exp (x / 4) := by
    have h := Real.add_one_le_exp (x / 4)
    linarith
  have hb : (0 : ℝ) ≤ 1 + x / 4 := by
    have hq : (0 : ℝ) ≤ x / 4 := div_nonneg hx (by norm_num)
    linarith
  have h2 : (1 + x / 4) ^ (4 : ℕ) ≤ Real.exp (x / 4) ^ (4 : ℕ) :=
    pow_le_pow_left₀ hb h1 4
  have h3 : Real.exp (x / 4) ^ (4 : ℕ) = Real.exp x := by
    rw [← Real.exp_nat_mul]
    congr 1
    push_cast
    ring
  rw [h3] at h2
  exact h2

lemma one_sub_quarter_pow_le_exp_neg (x : ℝ) (h01 : 0 ≤ 1 - x / 4) :
    (1 - x / 4) ^ (4 : ℕ) ≤ Real.exp (-x) := by
  have h1 : 1 - x / 4 ≤ Real.exp (-(x / 4)) := by
    have h := Real.add_one_le_exp (-(x / 4))
    linarith
  have h2 : (1 - x / 4) ^ (4 : ℕ) ≤ Real.exp (-(x / 4)) ^ (4 : ℕ) :=
    pow_le_pow_left₀ h01 h1 4
  have h3 : Real.exp (-(x / 4)) ^ (4 : ℕ) = Real.exp (-x) := by
    rw [← Real.exp_nat_mul]
    congr 1
    push_cast
    ring
  rw [h3] at h2
  exact h2

lemma exp_neg_le_inv_quarter_pow (x : ℝ) (hx : 0 ≤ x) :
    Real.exp (-x) ≤ ((1 + x / 4) ^ (4 : ℕ))⁻¹ := by
  rw [Real.exp_neg]
  have hb : (0 : ℝ) < 1 + x / 4 := by
    have hq : (0 : ℝ) ≤ x / 4 := div_nonneg hx (by norm_num)
    linarith
  exact inv_anti₀ (pow_pos hb 4) (one_add_quarter_pow_le_exp x hx)

/-- C4 parameters: `clustering_threshold = 1`, `fading_factor = 1`,
one dimension. -/
def pC4 : DBSTREAMParams := ⟨1, 1, 10, 1, 0.3, 1⟩

lemma pC4_ff : pC4.fading_factor = 1 := rfl

lemma pC4_r : pC4.clustering_threshold = 1 := rfl

lemma pC4_dim : pC4.dim = 1 := rfl

/-- C4 counterexample state: three micro-clusters at `11/20`, `1/2` and
`-13/20`, all of weight `1`, clock `0`; the processed point is `0`, whose
neighbors are all three. -/
noncomputable def stC4 : DBSTREAMState :=
  ⟨0, [(0, ⟨cpoint (11 / 20), 0, 1⟩), (1, ⟨cpoint (51 / 100), 0, 1⟩),
    (2, ⟨cpoint (-(13 / 20)), 0, 1⟩)], [], []⟩

lemma gaussC4_0 :
    gaussian_neighborhood pC4 (cpoint 0) (cpoint (11 / 20)) =
      Real.exp (-(1089 / 800)) := by
  unfold gaussian_neighborhood
  simp only [pC4]
  rw [distance_mul_self]
  congr 1
  norm_num [cpoint]

lemma gaussC4_1 :
    gaussian_neighborhood pC4 (cpoint 0) (cpoint (51 / 100)) =
      Real.exp (-(23409 / 20000)) := by
  unfold gaussian_neighborhood
  simp only [pC4]
  rw [distance_mul_self]
  congr 1
  norm_num [cpoint]

lemma gaussC4_2 :
    gaussian_neighborhood pC4 (cpoint 0) (cpoint (-(13 / 20))) =
      Real.exp (-(1521 / 800)) := by
  unfold gaussian_neighborhood
  simp only [pC4]
  rw [distance_mul_self]
  congr 1
  norm_num [cpoint]

lemma gC4_2_ub : Real.exp (-(1521 / 800) : ℝ) ≤ 3 / 13 := by
  have h := exp_neg_le_inv_quarter_pow (1521 / 800) (by norm_num)
  refine h.trans ?_
  norm_num

lemma gC4_1_lb : (10256270656509120961 / 40960000000000000000 : ℝ) ≤ Real.exp (-(23409 / 20000)) := by
  have h := one_sub_quarter_pow_le_exp_neg (23409 / 20000) (by norm_num)
  refine le_trans ?_ h
  norm_num

lemma gC4_2_lb :
    (7946992159681 / 104857600000000 : ℝ) ≤ Real.exp (-(1521 / 800)) := by
  have h := one_sub_quarter_pow_le_exp_neg (1521 / 800) (by norm_num)
  refine le_trans ?_ h
  norm_num

lemma mC4e0 : moved_center pC4 (cpoint 0) (cpoint (11 / 20)) 0 =
    11 / 20 + Real.exp (-(1089 / 800)) * (0 - 11 / 20) := by
  unfold moved_center
  rw [gaussC4_0]
  simp [cpoint]

lemma mC4e1 : moved_center pC4 (cpoint 0) (cpoint (51 / 100)) 0 =
    51 / 100 + Real.exp (-(23409 / 20000)) * (0 - 51 / 100) := by
  unfold moved_center
  rw [gaussC4_1]
  simp [cpoint]

lemma mC4e2 : moved_center pC4 (cpoint 0) (cpoint (-(13 / 20))) 0 =
    -(13 / 20) + Real.exp (-(1521 / 800)) * (0 - -(13 / 20)) := by
  unfold moved_center
  rw [gaussC4_2]
  simp [cpoint]

/-- Pair `(0, 1)`: the fully-moved centers are strictly closer than the
threshold, so the first collapse-prevention check reverts both. -/
lemma hC4B01 : distance 1 (moved_center pC4 (cpoint 0) (cpoint (11 / 20)))
    (moved_center pC4 (cpoint 0) (cpoint (51 / 100))) < 1 := by
  rw [distance1_eval, mC4e0, mC4e1]
  have h0p := Real.exp_pos (-(1089 / 800) : ℝ)
  have h0l : Real.exp (-(1089 / 800) : ℝ) < 1 := by
    rw [Real.exp_lt_one_iff]
    norm_num
  have h1p := Real.exp_pos (-(23409 / 20000) : ℝ)
  have h1l : Real.exp (-(23409 / 20000) : ℝ) < 1 := by
    rw [Real.exp_lt_one_iff]
    norm_num
  rw [abs_lt]
  constructor <;> nlinarith

/-- Pair `(0, 2)`, checked after the `(0, 1)` reversion: the reverted center
of `0` and the moved center of `2` are at least the threshold apart, so no
reversion happens. -/
lemma hC4B02 : ¬ (distance 1 (cpoint (11 / 20))
    (moved_center pC4 (cpoint 0) (cpoint (-(13 / 20)))) < 1) := by
  rw [distance1_eval, mC4e2]
  simp only [cpoint]
  have h2p := Real.exp_pos (-(1521 / 800) : ℝ)
  have hub := gC4_2_ub
  rw [abs_of_nonneg (by nlinarith)]
  refine not_lt.mpr ?_
  nlinarith

/-- Pair `(1, 2)`, checked after the `(0, 1)` reversion: the reverted center
of `1` and the moved center of `2` are at least the threshold apart, so no
reversion happens — although the moved centers of `1` and `2` are strictly
closer than the threshold. -/
lemma hC4B12 : ¬ (distance 1 (cpoint (51 / 100))
    (moved_center pC4 (cpoint 0) (cpoint (-(13 / 20)))) < 1) := by
  rw [distance1_eval, mC4e2]
  simp only [cpoint]
  have h2p := Real.exp_pos (-(1521 / 800) : ℝ)
  have hub := gC4_2_ub
  rw [abs_of_nonneg (by nlinarith)]
  refine not_lt.mpr ?_
  nlinarith

/-- The fully-moved centers of `1` and `2` are strictly closer than the
threshold, so the claim requires both to be reverted. -/
lemma hC4viol : distance 1 (moved_center pC4 (cpoint 0) (cpoint (51 / 100)))
    (moved_center pC4 (cpoint 0) (cpoint (-(13 / 20)))) < 1 := by
  rw [distance1_eval, mC4e1, mC4e2]
  have h1lb := gC4_1_lb
  have h2lb := gC4_2_lb
  have h1l : Real.exp (-(23409 / 20000) : ℝ) < 1 := by
    rw [Real.exp_lt_one_iff]
    norm_num
  have h2l : Real.exp (-(1521 / 800) : ℝ) < 1 := by
    rw [Real.exp_lt_one_iff]
    norm_num
  rw [abs_of_nonneg (by nlinarith)]
  nlinarith

lemma stC4_nn :
    find_fixed_radius_nn pC4 stC4 (cpoint 0) =
      [(0, ⟨cpoint (11 / 20), 0, 1⟩), (1, ⟨cpoint (51 / 100), 0, 1⟩),
        (2, ⟨cpoint (-(13 / 20)), 0, 1⟩)] := by
  have h0 : distance 1 (cpoint (11 / 20)) (cpoint 0) < (1 : ℝ) := by
    refine dist_near (11 / 20) 0 ?_
    rw [abs_of_nonneg (by norm_num)]
    norm_num
  have h1 : distance 1 (cpoint (51 / 100)) (cpoint 0) < (1 : ℝ) := by
    refine dist_near (51 / 100) 0 ?_
    rw [abs_of_nonneg (by norm_num)]
    norm_num
  have h2 : distance 1 (cpoint (-(13 / 20))) (cpoint 0) < (1 : ℝ) := by
    refine dist_near (-(13 / 20)) 0 ?_
    rw [abs_of_nonpos (by norm_num)]
    norm_num
  simp [find_fixed_radius_nn, stC4, pC4, List.filter_cons, h0, h1, h2]

/-- The final center of micro-cluster `2`: its unconstrained move, which the
sequential pair loop never reverts. -/
noncomputable def mC4m2 : Nat → ℝ :=
  moved_center pC4 (cpoint 0) (cpoint (-(13 / 20)))

/-- The state `_update` produces from `stC4` and the point `0`: the pair
`(0, 1)` was reverted first; the pairs `(0, 2)` and `(1, 2)` were then
checked against the already-reverted centers and passed, so micro-cluster
`2` keeps its moved center. -/
noncomputable def stC4post : DBSTREAMState :=
  ⟨1, [(0, ⟨cpoint (11 / 20), 0, 2⟩), (1, ⟨cpoint (51 / 100), 0, 2⟩),
    (2, ⟨mC4m2, 0, 2⟩)],
    [(0, [(1, 0), (2, 0)]), (1, [(2, 0)])],
    [(0, [(1, 0), (2, 0)]), (1, [(2, 0)])]⟩

lemma stC4_upd : update pC4 (cpoint 0) stC4 = stC4post := by
  unfold update
  rw [stC4_nn]
  norm_num [stC4post, mC4m2, stC4, pC4_ff, pC4_r, pC4_dim, List.foldl,
    neighborStep, sPairUpdate, collapseStep, getMC, alookup_cons, alookup_nil,
    alookup2, aset_cons, aset_nil, aset2, akeys_cons, akeys_nil,
    hC4B01, hC4B02, hC4B12]

lemma mC4m2_eval : mC4m2 0 =
    -(13 / 20) + Real.exp (-(1521 / 800)) * (0 - -(13 / 20)) := mC4e2

/-- C4.  The claim states that all reversion decisions are taken on the
fully-moved state: every pair of simultaneous neighbors whose unconstrained
moves land strictly closer than `clustering_threshold` has both centers
reverted to their pre-update values.  In the code the pair loop runs
sequentially on the current dictionary: with the three neighbors of `stC4`
and the point `0`, the pair `(0, 1)` is reverted first, after which the
pairs `(0, 2)` and `(1, 2)` are compared against the reverted centers and
pass — although the fully-moved centers of `1` and `2` are strictly closer
than the threshold, micro-cluster `2` keeps its moved center, which differs
from its pre-update value. -/
theorem C4_counterexample :
    akeys (find_fixed_radius_nn pC4 stC4 (cpoint 0)) = [0, 1, 2] ∧
    distance pC4.dim
      (moved_center pC4 (cpoint 0) (getMC stC4.micro_clusters 1).center)
      (moved_center pC4 (cpoint 0) (getMC stC4.micro_clusters 2).center) <
      pC4.clustering_threshold ∧
    (getMC (update pC4 (cpoint 0) stC4).micro_clusters 2).center 0 ≠
      (getMC stC4.micro_clusters 2).center 0 := by
  refine ⟨?_, ?_, ?_⟩
  · rw [stC4_nn]
    rfl
  · have hg1 : (getMC stC4.micro_clusters 1).center = cpoint (51 / 100) := rfl
    have hg2 : (getMC stC4.micro_clusters 2).center = cpoint (-(13 / 20)) := rfl
    rw [hg1, hg2, pC4_dim, pC4_r]
    exact hC4viol
  · rw [stC4_upd]
    have hg2 : (getMC stC4post.micro_clusters 2).center = mC4m2 := rfl
    have hg2p : (getMC stC4.micro_clusters 2).center = cpoint (-(13 / 20)) := rfl
    rw [hg2, hg2p, mC4m2_eval]
    simp only [cpoint]
    have h2p := Real.exp_pos (-(1521 / 800) : ℝ)
    intro hcon
    nlinarith

/-- One positive collapse-prevention check: both records of the pair get
their centers replaced by the recorded pre-update centers. -/
lemma collapseStep_pos (p : DBSTREAMParams) (cc : Nat → Nat → ℝ) (i j : Nat)
    (st : DBSTREAMState)
    (h : distance p.dim (getMC st.micro_clusters i).center
      (getMC st.micro_clusters j).center < p.clustering_threshold) :
    (collapseStep p cc i j st).micro_clusters =
      aset (aset st.micro_clusters i
        { getMC st.micro_clusters i with center := cc i }) j
        { getMC st.micro_clusters j with center := cc j } := by
  unfold collapseStep
  rw [if_pos h]

/-- C4 (amended).  The reversion decisions are taken sequentially in
ascending pair order on the current (possibly already-reverted) centers,
not simultaneously on the fully-moved state, so with three or more
simultaneous neighbors an earlier reversion can leave a pair whose moved
centers are strictly closer than `clustering_threshold` unreverted (see the
counterexample).  With exactly two simultaneous neighbors the claim holds as
stated: if their unconstrained moves land strictly closer than
`clustering_threshold`, both centers equal their pre-update values after
`_update`. -/
theorem C4_two_neighbor_revert (p : DBSTREAMParams) (x : Nat → ℝ)
    (st : DBSTREAMState) (i j : Nat) (mci mcj : DBSTREAMMicroCluster)
    (hnn : find_fixed_radius_nn p st x = [(i, mci), (j, mcj)])
    (hij : i < j)
    (hlki : alookup st.micro_clusters i = some mci)
    (hlkj : alookup st.micro_clusters j = some mcj)
    (hclose : distance p.dim (moved_center p x mci.center)
      (moved_center p x mcj.center) < p.clustering_threshold) :
    (getMC (update p x st).micro_clusters i).center = mci.center ∧
    (getMC (update p x st).micro_clusters j).center = mcj.center := by
  have hne : i ≠ j := Nat.ne_of_lt hij
  have hlen : ¬ (find_fixed_radius_nn p st x).length < 1 := by
    rw [hnn]
    simp
  have hkeys : akeys (find_fixed_radius_nn p st x) = [i, j] := by
    rw [hnn]
    rfl
  have hgi : getMC st.micro_clusters i = mci := by
    unfold getMC
    rw [hlki]
    rfl
  have hgj : getMC st.micro_clusters j = mcj := by
    unfold getMC
    rw [hlkj]
    rfl
  have hN1mc := neighborStep_micro_clusters p [i, j] x st.time_stamp st i
  have hPAmc := neighborStep_micro_clusters p [i, j] x st.time_stamp
    (neighborStep p [i, j] x st.time_stamp st i) j
  have hgN1j : getMC (neighborStep p [i, j] x st.time_stamp st i).micro_clusters j
      = mcj := by
    unfold getMC
    rw [hN1mc, alookup_aset_ne _ _ _ _ hne, hlkj]
    rfl
  have hgPAi : (getMC (neighborStep p [i, j] x st.time_stamp
      (neighborStep p [i, j] x st.time_stamp st i) j).micro_clusters i).center =
      moved_center p x mci.center := by
    unfold getMC
    rw [hPAmc, alookup_aset_ne _ _ _ _ (Ne.symm hne), hN1mc, alookup_aset_self]
    simp [hgi]
  have hgPAj : (getMC (neighborStep p [i, j] x st.time_stamp
      (neighborStep p [i, j] x st.time_stamp st i) j).micro_clusters j).center =
      moved_center p x mcj.center := by
    unfold getMC
    rw [hPAmc, alookup_aset_self]
    simp [hgN1j]
  have hcond : distance p.dim
      (getMC (neighborStep p [i, j] x st.time_stamp
        (neighborStep p [i, j] x st.time_stamp st i) j).micro_clusters i).center
      (getMC (neighborStep p [i, j] x st.time_stamp
        (neighborStep p [i, j] x st.time_stamp st i) j).micro_clusters j).center <
      p.clustering_threshold := by
    rw [hgPAi, hgPAj]
    exact hclose
  have hupd : (update p x st).micro_clusters =
      (collapseStep p (fun k => (getMC st.micro_clusters k).center) i j
        (neighborStep p [i, j] x st.time_stamp
          (neighborStep p [i, j] x st.time_stamp st i) j)).micro_clusters := by
    simp only [update]
    rw [if_neg hlen, hkeys]
    simp only [List.foldl_cons, List.foldl_nil, gt_iff_lt]
    rw [if_neg (lt_irrefl i), if_pos hij, if_neg (Nat.lt_asymm hij),
      if_neg (lt_irrefl j)]
  rw [hupd, collapseStep_pos p _ i j _ hcond]
  constructor
  · unfold getMC
    rw [alookup_aset_ne _ _ _ _ (Ne.symm hne), alookup_aset_self]
    simp [hlki]
  · unfold getMC
    rw [alookup_aset_self]
    simp [hlkj]

/-- C4 witness state: exactly two micro-clusters, at `1/2` and `9/10`; the
processed point is `0`. -/
noncomputable def stC4w : DBSTREAMState :=
  ⟨0, [(0, ⟨cpoint (51 / 100), 0, 1⟩), (1, ⟨cpoint (9 / 10), 0, 1⟩)], [], []⟩

lemma stC4w_nn :
    find_fixed_radius_nn pC4 stC4w (cpoint 0) =
      [(0, ⟨cpoint (51 / 100), 0, 1⟩), (1, ⟨cpoint (9 / 10), 0, 1⟩)] := by
  have h0 : distance 1 (cpoint (51 / 100)) (cpoint 0) < (1 : ℝ) := by
    refine dist_near (51 / 100) 0 ?_
    rw [abs_of_nonneg (by norm_num)]
    norm_num
  have h1 : distance 1 (cpoint (9 / 10)) (cpoint 0) < (1 : ℝ) := by
    refine dist_near (9 / 10) 0 ?_
    rw [abs_of_nonneg (by norm_num)]
    norm_num
  simp [find_fixed_radius_nn, stC4w, pC4, List.filter_cons, h0, h1]

lemma gaussC4_w :
    gaussian_neighborhood pC4 (cpoint 0) (cpoint (9 / 10)) =
      Real.exp (-(729 / 200)) := by
  unfold gaussian_neighborhood
  simp only [pC4]
  rw [distance_mul_self]
  congr 1
  norm_num [cpoint]

lemma mC4ew : moved_center pC4 (cpoint 0) (cpoint (9 / 10)) 0 =
    9 / 10 + Real.exp (-(729 / 200)) * (0 - 9 / 10) := by
  unfold moved_center
  rw [gaussC4_w]
  simp [cpoint]

lemma hC4wclose : distance pC4.dim
    (moved_center pC4 (cpoint 0) (cpoint (51 / 100)))
    (moved_center pC4 (cpoint 0) (cpoint (9 / 10))) < pC4.clustering_threshold := by
  rw [pC4_dim, pC4_r, distance1_eval, mC4e1, mC4ew]
  have h1p := Real.exp_pos (-(23409 / 20000) : ℝ)
  have h1l : Real.exp (-(23409 / 20000) : ℝ) < 1 := by
    rw [Real.exp_lt_one_iff]
    norm_num
  have hwp := Real.exp_pos (-(729 / 200) : ℝ)
  have hwl : Real.exp (-(729 / 200) : ℝ) < 1 := by
    rw [Real.exp_lt_one_iff]
    norm_num
  rw [abs_lt]
  constructor <;> nlinarith

/-- Witness: the amended two-neighbor case of C4 at a concrete input, with
every hypothesis discharged. -/
theorem C4_two_neighbor_revert_witness :
    find_fixed_radius_nn pC4 stC4w (cpoint 0) =
      [(0, ⟨cpoint (51 / 100), 0, 1⟩), (1, ⟨cpoint (9 / 10), 0, 1⟩)] ∧
    (0 : ℕ) < 1 ∧
    alookup stC4w.micro_clusters 0 = some ⟨cpoint (51 / 100), 0, 1⟩ ∧
    alookup stC4w.micro_clusters 1 = some ⟨cpoint (9 / 10), 0, 1⟩ ∧
    distance pC4.dim (moved_center pC4 (cpoint 0) (cpoint (51 / 100)))
      (moved_center pC4 (cpoint 0) (cpoint (9 / 10))) < pC4.clustering_threshold ∧
    (getMC (update pC4 (cpoint 0) stC4w).micro_clusters 0).center = cpoint (51 / 100) ∧
    (getMC (update pC4 (cpoint 0) stC4w).micro_clusters 1).center = cpoint (9 / 10) :=
  ⟨stC4w_nn, Nat.zero_lt_one, rfl, rfl, hC4wclose,
    C4_two_neighbor_revert pC4 (cpoint 0) stC4w 0 1 ⟨cpoint (51 / 100), 0, 1⟩
      ⟨cpoint (9 / 10), 0, 1⟩ stC4w_nn Nat.zero_lt_one rfl rfl hC4wclose⟩

end DBStreamVerify
